import Mathlib

/-!
Verification development for the race replay engine
(`src/dashboard/replay_engine.py` and `src/api/routes/dashboard.py`).

Conventions of the shallow embedding:
* Python floats (session times in seconds, cumulative times, coordinates)
  are modelled as `ℚ`; lap numbers and classification positions as `ℤ`;
  driver codes, compounds, team names as `String`.
* Python dicts with a `.get(key, default)` access pattern are modelled as
  total functions returning the default for missing keys; optional function
  arguments that the source tests for truthiness (`if cumtime_lookup:`) are
  modelled as `Option` (a missing or empty dict behaves like `none` /
  a function returning `[]`, which yields the same results downstream).
* `None`-able floats are `Option ℚ`; `math.nan` never flows into the
  modelled code paths because the source drops NaNs (`dropna`) or tests
  for them (`np.isnan`), which the model renders as `Option`.
* Python's stable `list.sort(key=...)` is modelled by `List.insertionSort`
  with the (total, transitive) key ordering; insertion sort is stable, so
  it agrees with any stable sort on the same key.
-/

/-- Scan of a time-ordered `(session_time, value)` list: mirrors the
`for t, v in entries: if session_time >= t: acc = v else: break` loops of
the query helpers in `replay_engine.py` (lines 579-619), including the
early `break` (entries after the first future timestamp are ignored). -/
def step_lookup {β : Type} (session_time : ℚ) : List (ℚ × β) → β → β
  | [], acc => acc
  | (t, v) :: rest, acc =>
      if session_time ≥ t then step_lookup session_time rest v else acc

/-- Embeds `get_current_lap` (replay_engine.py line 579): last lap whose
completion time is ≤ t, defaulting to lap 1 when no lap has completed. -/
def get_current_lap (driver : String) (session_time : ℚ)
    (lap_lookup : String → List (ℚ × ℤ)) : ℤ :=
  let lap := step_lookup session_time (lap_lookup driver) 0
  if lap > 0 then lap else 1

/-- Embeds `get_current_position` (replay_engine.py line 590): last recorded
classification position at or before t, `none` when no data yet. -/
def get_current_position (driver : String) (session_time : ℚ)
    (pos_lookup : String → List (ℚ × ℤ)) : Option ℤ :=
  step_lookup session_time
    ((pos_lookup driver).map fun e => (e.1, some e.2)) none

/-- Embeds `get_current_compound` (replay_engine.py line 601): step lookup of
`(compound, tyre_life)` with default `("UNKNOWN", 0)`. -/
def get_current_compound (driver : String) (session_time : ℚ)
    (compound_lookup : String → List (ℚ × String × ℤ)) : String × ℤ :=
  step_lookup session_time
    ((compound_lookup driver).map fun e => (e.1, e.2)) ("UNKNOWN", 0)

/-- Embeds `get_current_track_status` (replay_engine.py line 612): last
status change at or before t, default `("1", "Green")`. -/
def get_current_track_status (session_time : ℚ)
    (ts_lookup : List (ℚ × String × String)) : String × String :=
  step_lookup session_time (ts_lookup.map fun e => (e.1, e.2)) ("1", "Green")

/-- The driver's last cumulative-time data point, `entries[-1][1]` in
`get_standings_at_time` (replay_engine.py lines 649-653); `none` when the
lookup is absent (falsy) or the driver has no entries. -/
def last_known_time (cumtime_lookup : Option (String → List (ℤ × ℚ)))
    (driver : String) : Option ℚ :=
  match cumtime_lookup with
  | none => none
  | some f => ((f driver).getLast?).map (·.2)

/-- The retirement test of `get_standings_at_time` (replay_engine.py lines
654-656): flagged in final results, has a last known time, and the query
time exceeds it by more than the 120 s grace window. -/
def is_retired_at (session_time : ℚ) (driver : String)
    (retired_drivers : String → Bool)
    (cumtime_lookup : Option (String → List (ℤ × ℚ))) : Bool :=
  retired_drivers driver &&
    match last_known_time cumtime_lookup driver with
    | some lk => decide (session_time > lk + 120)
    | none => false

/-- Cumulative time used for gaps (replay_engine.py lines 658-663): scan the
`(lap_number, time)` entries from the end and take the first time ≤ t. -/
def cum_time_at (session_time : ℚ)
    (cumtime_lookup : Option (String → List (ℤ × ℚ)))
    (driver : String) : Option ℚ :=
  match cumtime_lookup with
  | none => none
  | some f =>
      (((f driver).reverse).find? fun e => decide (e.2 ≤ session_time)).map (·.2)

/-- One pre-sort standings record, the dict built per driver in
`get_standings_at_time` (replay_engine.py lines 665-675). -/
structure RawStanding where
  driver : String
  position : Option ℤ
  lap : ℤ
  team : String
  compound : String
  tyre_life : ℤ
  speed : ℚ
  cum_time : Option ℚ
  retired : Bool

/-- Builds the per-driver record of `get_standings_at_time` (replay_engine.py
lines 640-675).  `compound_lookup`/`cumtime_lookup` are `none` when the
Python argument is falsy; `frame_speed` models
`speed_map.get(driver, {}).get("speed", 0)`. -/
def build_raw_standing (session_time : ℚ)
    (pos_lookup : String → List (ℚ × ℤ)) (lap_lookup : String → List (ℚ × ℤ))
    (team_map : String → String)
    (compound_lookup : Option (String → List (ℚ × String × ℤ)))
    (frame_speed : String → Option ℚ)
    (cumtime_lookup : Option (String → List (ℤ × ℚ)))
    (retired_drivers : String → Bool) (driver : String) : RawStanding :=
  let cl :=
    match compound_lookup with
    | none => ("", 0)
    | some f => get_current_compound driver session_time f
  { driver := driver
    position := get_current_position driver session_time pos_lookup
    lap := get_current_lap driver session_time lap_lookup
    team := team_map driver
    compound := cl.1
    tyre_life := cl.2
    speed := (frame_speed driver).getD 0
    cum_time := cum_time_at session_time cumtime_lookup driver
    retired := is_retired_at session_time driver retired_drivers cumtime_lookup }

/-- The third sort-key component `x["position"] or 99` (replay_engine.py
line 677): Python truthiness maps both `None` and `0` to `99`. -/
def pos_or_99 (p : Option ℤ) : ℤ :=
  match p with
  | none => 99
  | some v => if v = 0 then 99 else v

def bool_nat (b : Bool) : ℕ := if b then 1 else 0

/-- Lexicographic order on the sort key
`(x["retired"], x["position"] is None, x["position"] or 99)` used by
`standings.sort` (replay_engine.py line 677); `False < True` on booleans,
stated through the injective encoding `bool_nat`. -/
def standings_le (a b : RawStanding) : Prop :=
  bool_nat a.retired < bool_nat b.retired ∨
    (bool_nat a.retired = bool_nat b.retired ∧
      (bool_nat a.position.isNone < bool_nat b.position.isNone ∨
        (bool_nat a.position.isNone = bool_nat b.position.isNone ∧
          pos_or_99 a.position ≤ pos_or_99 b.position)))

instance : DecidableRel standings_le := fun a b => by
  unfold standings_le; infer_instance

instance : IsTotal RawStanding standings_le :=
  ⟨fun a b => by unfold standings_le; omega⟩

instance : IsTrans RawStanding standings_le :=
  ⟨fun a b c hab hbc => by unfold standings_le at hab hbc ⊢; omega⟩

/-- Python's `f"+{abs(v):.1f}s"` (replay_engine.py lines 695-698) on exact
rationals: one-decimal rounding of `|v|`.  Ties (exact multiples of 0.05)
never arise in the facts proved here; away from ties this agrees with
Python's float formatting. -/
def fmt_gap_secs (v : ℚ) : String :=
  let w : ℚ := |v| * 10 + 1 / 2
  let n : ℤ := w.num / w.den
  "+" ++ toString (n / 10) ++ "." ++ toString (n % 10) ++ "s"

/-- The lap-deficit string `f"+{diff} LAP{'S' if diff > 1 else ''}"`
(replay_engine.py line 691). -/
def lap_gap_str (diff : ℤ) : String :=
  "+" ++ toString diff ++ " LAP" ++ (if diff > 1 then "S" else "")

/-- Gap string of the entry at index `idx` in the sorted standings
(replay_engine.py lines 685-703): leaders and position-less entries get `""`;
a lap deficit yields the lap string; otherwise the cumulative-time difference
against the leader, rendered only above the 0.05 s noise floor. -/
def gap_of (leader_lap : ℤ) (leader_cum : Option ℚ) (idx : ℕ)
    (s : RawStanding) : String :=
  if idx = 0 ∨ s.position = none then ""
  else if s.lap < leader_lap then lap_gap_str (leader_lap - s.lap)
  else
    match leader_cum, s.cum_time with
    | some lc, some c => if c - lc > 0.05 then fmt_gap_secs (c - lc) else ""
    | _, _ => ""

/-- Interval string of the entry at index `idx` (replay_engine.py lines
685-703): same branch structure as `gap_of`, but in the cumulative branch the
difference is taken against `prev_cum`, the running "previous cumulative
time" state of the loop, falling back to the gap when that state is `None`
or `idx = 0` (mirroring `if prev_cum is not None and i > 0`). -/
def interval_of (leader_lap : ℤ) (leader_cum : Option ℚ) (idx : ℕ)
    (prev_cum : Option ℚ) (s : RawStanding) : String :=
  if idx = 0 ∨ s.position = none then ""
  else if s.lap < leader_lap then lap_gap_str (leader_lap - s.lap)
  else
    match leader_cum, s.cum_time with
    | some _, some c =>
        match prev_cum with
        | some pc =>
            if idx > 0 then (if c - pc > 0.05 then fmt_gap_secs (c - pc) else "")
            else gap_of leader_lap leader_cum idx s
        | none => gap_of leader_lap leader_cum idx s
    | _, _ => ""

/-- The final standings dict after the gap loop: `cum_time` is deleted
(replay_engine.py lines 708-709), `gap`/`interval` added. -/
structure StandingEntry where
  driver : String
  position : Option ℤ
  lap : ℤ
  team : String
  compound : String
  tyre_life : ℤ
  speed : ℚ
  retired : Bool
  gap : String
  interval : String

def finalize_standing (leader_lap : ℤ) (leader_cum : Option ℚ) (idx : ℕ)
    (prev_cum : Option ℚ) (s : RawStanding) : StandingEntry :=
  { driver := s.driver
    position := s.position
    lap := s.lap
    team := s.team
    compound := s.compound
    tyre_life := s.tyre_life
    speed := s.speed
    retired := s.retired
    gap := gap_of leader_lap leader_cum idx s
    interval := interval_of leader_lap leader_cum idx prev_cum s }

/-- The `if s["cum_time"] is not None: prev_cum = s["cum_time"]` update at
the end of each gap-loop iteration (replay_engine.py lines 705-706). -/
def update_prev_cum (prev : Option ℚ) (s : RawStanding) : Option ℚ :=
  match s.cum_time with
  | some c => some c
  | none => prev

/-- The gap/interval loop of `get_standings_at_time` (replay_engine.py lines
685-706), carrying the entry index and the `prev_cum` state. -/
def assign_gaps (leader_lap : ℤ) (leader_cum : Option ℚ) :
    List RawStanding → ℕ → Option ℚ → List StandingEntry
  | [], _, _ => []
  | s :: rest, idx, prev_cum =>
      finalize_standing leader_lap leader_cum idx prev_cum s ::
        assign_gaps leader_lap leader_cum rest (idx + 1)
          (update_prev_cum prev_cum s)

/-- The sorted intermediate standings list of `get_standings_at_time`
(replay_engine.py lines 640-677): one raw record per roster driver, sorted
stably by `(retired, position is None, position or 99)`. -/
def sorted_raw_standings (session_time : ℚ) (drivers : List String)
    (pos_lookup : String → List (ℚ × ℤ)) (lap_lookup : String → List (ℚ × ℤ))
    (team_map : String → String)
    (compound_lookup : Option (String → List (ℚ × String × ℤ)))
    (frame_speed : String → Option ℚ)
    (cumtime_lookup : Option (String → List (ℤ × ℚ)))
    (retired_drivers : String → Bool) : List RawStanding :=
  List.insertionSort standings_le
    (drivers.map (build_raw_standing session_time pos_lookup lap_lookup
      team_map compound_lookup frame_speed cumtime_lookup retired_drivers))

/-- The leader's lap, `leader["lap"] if leader else 0`
(replay_engine.py line 681). -/
def leader_lap_of : List RawStanding → ℤ
  | [] => 0
  | l :: _ => l.lap

/-- The leader's cumulative time, `leader["cum_time"] if leader else None`
(replay_engine.py line 682). -/
def leader_cum_of : List RawStanding → Option ℚ
  | [] => none
  | l :: _ => l.cum_time

/-- Embeds `get_standings_at_time` (replay_engine.py lines 622-711): build
raw records, sort, then run the gap/interval loop with `prev_cum`
initialised to the leader's cumulative time (line 683). -/
def get_standings_at_time (session_time : ℚ) (drivers : List String)
    (pos_lookup : String → List (ℚ × ℤ)) (lap_lookup : String → List (ℚ × ℤ))
    (team_map : String → String)
    (compound_lookup : Option (String → List (ℚ × String × ℤ)))
    (frame_speed : String → Option ℚ)
    (cumtime_lookup : Option (String → List (ℤ × ℚ)))
    (retired_drivers : String → Bool) : List StandingEntry :=
  let sorted := sorted_raw_standings session_time drivers pos_lookup lap_lookup
    team_map compound_lookup frame_speed cumtime_lookup retired_drivers
  assign_gaps (leader_lap_of sorted) (leader_cum_of sorted) sorted 0
    (leader_cum_of sorted)

/-- The `prev_cum` state of the gap loop after consuming a prefix of the
sorted list: the most recent non-`None` cumulative time, else the seed. -/
def prev_cum_after (init : Option ℚ) (l : List RawStanding) : Option ℚ :=
  l.foldl update_prev_cum init

/-! Structural lemmas about the standings pipeline. -/

@[simp] theorem finalize_standing_driver (L : ℤ) (C : Option ℚ) (idx : ℕ)
    (p : Option ℚ) (s : RawStanding) :
    (finalize_standing L C idx p s).driver = s.driver := rfl

@[simp] theorem finalize_standing_position (L : ℤ) (C : Option ℚ) (idx : ℕ)
    (p : Option ℚ) (s : RawStanding) :
    (finalize_standing L C idx p s).position = s.position := rfl

@[simp] theorem finalize_standing_lap (L : ℤ) (C : Option ℚ) (idx : ℕ)
    (p : Option ℚ) (s : RawStanding) :
    (finalize_standing L C idx p s).lap = s.lap := rfl

@[simp] theorem finalize_standing_retired (L : ℤ) (C : Option ℚ) (idx : ℕ)
    (p : Option ℚ) (s : RawStanding) :
    (finalize_standing L C idx p s).retired = s.retired := rfl

@[simp] theorem finalize_standing_gap (L : ℤ) (C : Option ℚ) (idx : ℕ)
    (p : Option ℚ) (s : RawStanding) :
    (finalize_standing L C idx p s).gap = gap_of L C idx s := rfl

@[simp] theorem finalize_standing_interval (L : ℤ) (C : Option ℚ) (idx : ℕ)
    (p : Option ℚ) (s : RawStanding) :
    (finalize_standing L C idx p s).interval = interval_of L C idx p s := rfl

@[simp] theorem assign_gaps_length (L : ℤ) (C : Option ℚ) (l : List RawStanding) :
    ∀ (i0 : ℕ) (p : Option ℚ), (assign_gaps L C l i0 p).length = l.length := by
  induction l with
  | nil => intro i0 p; rfl
  | cons s rest ih => intro i0 p; simp [assign_gaps, ih]

theorem assign_gaps_getElem (L : ℤ) (C : Option ℚ) (l : List RawStanding) :
    ∀ (i0 k : ℕ) (p : Option ℚ) (hk : k < l.length)
      (hk2 : k < (assign_gaps L C l i0 p).length),
      (assign_gaps L C l i0 p)[k] =
        finalize_standing L C (i0 + k) (prev_cum_after p (l.take k)) l[k] := by
  induction l with
  | nil => intro i0 k p hk hk2; exact absurd hk (by simp)
  | cons s rest ih =>
      intro i0 k p hk hk2
      match k with
      | 0 => simp [assign_gaps, prev_cum_after]
      | k + 1 =>
          have hk' : k < rest.length := by simpa using hk
          have hk2' : k < (assign_gaps L C rest (i0 + 1) (update_prev_cum p s)).length := by
            simpa using hk'
          simp only [assign_gaps, List.getElem_cons_succ, List.take_succ_cons]
          rw [ih (i0 + 1) k (update_prev_cum p s) hk' hk2']
          have harith : i0 + 1 + k = i0 + (k + 1) := by omega
          rw [harith]
          rfl

theorem sorted_raw_standings_sorted (session_time : ℚ) (drivers : List String)
    (pos_lookup lap_lookup : String → List (ℚ × ℤ)) (team_map : String → String)
    (compound_lookup : Option (String → List (ℚ × String × ℤ)))
    (frame_speed : String → Option ℚ)
    (cumtime_lookup : Option (String → List (ℤ × ℚ)))
    (retired_drivers : String → Bool) :
    List.Sorted standings_le (sorted_raw_standings session_time drivers
      pos_lookup lap_lookup team_map compound_lookup frame_speed
      cumtime_lookup retired_drivers) :=
  List.sorted_insertionSort standings_le _

theorem mem_sorted_raw_standings (session_time : ℚ) (drivers : List String)
    (pos_lookup lap_lookup : String → List (ℚ × ℤ)) (team_map : String → String)
    (compound_lookup : Option (String → List (ℚ × String × ℤ)))
    (frame_speed : String → Option ℚ)
    (cumtime_lookup : Option (String → List (ℤ × ℚ)))
    (retired_drivers : String → Bool) (r : RawStanding)
    (hr : r ∈ sorted_raw_standings session_time drivers pos_lookup lap_lookup
      team_map compound_lookup frame_speed cumtime_lookup retired_drivers) :
    r = build_raw_standing session_time pos_lookup lap_lookup team_map
      compound_lookup frame_speed cumtime_lookup retired_drivers r.driver := by
  have hmem : r ∈ drivers.map (build_raw_standing session_time pos_lookup
      lap_lookup team_map compound_lookup frame_speed cumtime_lookup
      retired_drivers) :=
    ((List.perm_insertionSort standings_le _).mem_iff).mp hr
  obtain ⟨d, _, hd⟩ := List.mem_map.mp hmem
  subst hd
  rfl

theorem step_lookup_map_some {β : Type} (session_time : ℚ) :
    ∀ (l : List (ℚ × β)) (acc : Option β) (p : β),
      step_lookup session_time (l.map fun e => (e.1, some e.2)) acc = some p →
      (∃ e ∈ l, e.2 = p) ∨ acc = some p := by
  intro l
  induction l with
  | nil => intro acc p h; exact Or.inr h
  | cons e rest ih =>
      intro acc p h
      simp only [List.map_cons, step_lookup] at h
      by_cases ht : session_time ≥ e.1
      · rw [if_pos ht] at h
        rcases ih (some e.2) p h with hmem | hacc
        · exact Or.inl (by obtain ⟨e', he', hv⟩ := hmem; exact ⟨e', by simp [he'], hv⟩)
        · exact Or.inl ⟨e, by simp, by simpa using hacc⟩
      · rw [if_neg ht] at h
        exact Or.inr h

theorem get_standings_length (session_time : ℚ) (drivers : List String)
    (pos_lookup lap_lookup : String → List (ℚ × ℤ)) (team_map : String → String)
    (compound_lookup : Option (String → List (ℚ × String × ℤ)))
    (frame_speed : String → Option ℚ)
    (cumtime_lookup : Option (String → List (ℤ × ℚ)))
    (retired_drivers : String → Bool) :
    (get_standings_at_time session_time drivers pos_lookup lap_lookup team_map
      compound_lookup frame_speed cumtime_lookup retired_drivers).length =
    (sorted_raw_standings session_time drivers pos_lookup lap_lookup team_map
      compound_lookup frame_speed cumtime_lookup retired_drivers).length := by
  simp [get_standings_at_time]

theorem get_standings_getElem (session_time : ℚ) (drivers : List String)
    (pos_lookup lap_lookup : String → List (ℚ × ℤ)) (team_map : String → String)
    (compound_lookup : Option (String → List (ℚ × String × ℤ)))
    (frame_speed : String → Option ℚ)
    (cumtime_lookup : Option (String → List (ℤ × ℚ)))
    (retired_drivers : String → Bool) (k : ℕ)
    (hk : k < (get_standings_at_time session_time drivers pos_lookup lap_lookup
      team_map compound_lookup frame_speed cumtime_lookup retired_drivers).length)
    (hk2 : k < (sorted_raw_standings session_time drivers pos_lookup lap_lookup
      team_map compound_lookup frame_speed cumtime_lookup retired_drivers).length) :
    (get_standings_at_time session_time drivers pos_lookup lap_lookup team_map
      compound_lookup frame_speed cumtime_lookup retired_drivers)[k] =
    finalize_standing
      (leader_lap_of (sorted_raw_standings session_time drivers pos_lookup
        lap_lookup team_map compound_lookup frame_speed cumtime_lookup
        retired_drivers))
      (leader_cum_of (sorted_raw_standings session_time drivers pos_lookup
        lap_lookup team_map compound_lookup frame_speed cumtime_lookup
        retired_drivers))
      k
      (prev_cum_after
        (leader_cum_of (sorted_raw_standings session_time drivers pos_lookup
          lap_lookup team_map compound_lookup frame_speed cumtime_lookup
          retired_drivers))
        ((sorted_raw_standings session_time drivers pos_lookup lap_lookup
          team_map compound_lookup frame_speed cumtime_lookup
          retired_drivers).take k))
      ((sorted_raw_standings session_time drivers pos_lookup lap_lookup
        team_map compound_lookup frame_speed cumtime_lookup
        retired_drivers).get ⟨k, hk2⟩) := by
  have h := assign_gaps_getElem
    (leader_lap_of (sorted_raw_standings session_time drivers pos_lookup
      lap_lookup team_map compound_lookup frame_speed cumtime_lookup
      retired_drivers))
    (leader_cum_of (sorted_raw_standings session_time drivers pos_lookup
      lap_lookup team_map compound_lookup frame_speed cumtime_lookup
      retired_drivers))
    (sorted_raw_standings session_time drivers pos_lookup lap_lookup team_map
      compound_lookup frame_speed cumtime_lookup retired_drivers)
    0 k
    (leader_cum_of (sorted_raw_standings session_time drivers pos_lookup
      lap_lookup team_map compound_lookup frame_speed cumtime_lookup
      retired_drivers))
    hk2 (by simpa using hk2)
  simpa [get_standings_at_time, List.get_eq_getElem] using h

theorem standings_le_facts {a b : RawStanding} (hle : standings_le a b) :
    (a.retired = true → b.retired = true) ∧
    (a.retired = false → b.retired = false →
      a.position = none → b.position = none) ∧
    (a.retired = b.retired → ∀ p q : ℤ, a.position = some p →
      b.position = some q → 1 ≤ p → 1 ≤ q → p ≤ q) := by
  unfold standings_le at hle
  refine ⟨?_, ?_, ?_⟩
  · intro h
    cases hb : b.retired
    · rw [h, hb] at hle
      simp [bool_nat] at hle
    · rfl
  · intro hra hrb hpa
    cases hb : b.position with
    | none => rfl
    | some q =>
        rw [hra, hrb, hpa, hb] at hle
        simp [bool_nat] at hle
  · intro hr p q hpa hpb hp hq
    have hp0 : p ≠ 0 := by omega
    have hq0 : q ≠ 0 := by omega
    rw [hr, hpa, hpb] at hle
    simp [bool_nat, pos_or_99, hp0, hq0] at hle
    omega

theorem position_of_entry_ge_one (session_time : ℚ) (drivers : List String)
    (pos_lookup lap_lookup : String → List (ℚ × ℤ)) (team_map : String → String)
    (compound_lookup : Option (String → List (ℚ × String × ℤ)))
    (frame_speed : String → Option ℚ)
    (cumtime_lookup : Option (String → List (ℤ × ℚ)))
    (retired_drivers : String → Bool)
    (hpos1 : ∀ d : String, ∀ e ∈ pos_lookup d, 1 ≤ e.2)
    (r : RawStanding)
    (hr : r ∈ sorted_raw_standings session_time drivers pos_lookup lap_lookup
      team_map compound_lookup frame_speed cumtime_lookup retired_drivers)
    (p : ℤ) (hp : r.position = some p) : 1 ≤ p := by
  have heq := mem_sorted_raw_standings session_time drivers pos_lookup
    lap_lookup team_map compound_lookup frame_speed cumtime_lookup
    retired_drivers r hr
  have hpos : get_current_position r.driver session_time pos_lookup = some p := by
    have hb : (build_raw_standing session_time pos_lookup lap_lookup team_map
        compound_lookup frame_speed cumtime_lookup retired_drivers
        r.driver).position = some p := by
      rw [← heq]; exact hp
    exact hb
  unfold get_current_position at hpos
  rcases step_lookup_map_some session_time (pos_lookup r.driver) none p hpos with
    hmem | habs
  · obtain ⟨e, he, hv⟩ := hmem
    have := hpos1 r.driver e he
    omega
  · exact absurd habs (by simp)

/-- C1: for every query time and roster, the standings returned by
`get_standings_at_time` put retired drivers after all non-retired ones,
position-less active drivers after all classified active ones, and —
provided recorded classification positions are at least 1, as in F1 data —
classified active drivers in non-decreasing position order (the order is
not strict in general: two drivers may carry the same last recorded
position, see the counterexample). -/
theorem standings_order_invariant
    (session_time : ℚ) (drivers : List String)
    (pos_lookup lap_lookup : String → List (ℚ × ℤ)) (team_map : String → String)
    (compound_lookup : Option (String → List (ℚ × String × ℤ)))
    (frame_speed : String → Option ℚ)
    (cumtime_lookup : Option (String → List (ℤ × ℚ)))
    (retired_drivers : String → Bool)
    (hpos1 : ∀ d : String, ∀ e ∈ pos_lookup d, 1 ≤ e.2)
    (out : List StandingEntry)
    (hout : out = get_standings_at_time session_time drivers pos_lookup
      lap_lookup team_map compound_lookup frame_speed cumtime_lookup
      retired_drivers)
    (i j : ℕ) (hi : i < out.length) (hj : j < out.length) (hij : i < j) :
    (out[i].retired = true → out[j].retired = true) ∧
    (out[i].retired = false → out[j].retired = false →
      out[i].position = none → out[j].position = none) ∧
    (∀ p q : ℤ, out[i].retired = false → out[j].retired = false →
      out[i].position = some p → out[j].position = some q → p ≤ q) := by
  subst hout
  have hlen := get_standings_length session_time drivers pos_lookup lap_lookup
    team_map compound_lookup frame_speed cumtime_lookup retired_drivers
  have hi2 : i < (sorted_raw_standings session_time drivers pos_lookup
      lap_lookup team_map compound_lookup frame_speed cumtime_lookup
      retired_drivers).length := by rw [← hlen]; exact hi
  have hj2 : j < (sorted_raw_standings session_time drivers pos_lookup
      lap_lookup team_map compound_lookup frame_speed cumtime_lookup
      retired_drivers).length := by rw [← hlen]; exact hj
  have hgi := get_standings_getElem session_time drivers pos_lookup lap_lookup
    team_map compound_lookup frame_speed cumtime_lookup retired_drivers i hi hi2
  have hgj := get_standings_getElem session_time drivers pos_lookup lap_lookup
    team_map compound_lookup frame_speed cumtime_lookup retired_drivers j hj hj2
  rw [hgi, hgj]
  simp only [finalize_standing_retired, finalize_standing_position,
    List.get_eq_getElem]
  have hs := sorted_raw_standings_sorted session_time drivers pos_lookup
    lap_lookup team_map compound_lookup frame_speed cumtime_lookup
    retired_drivers
  have hle : standings_le
      (sorted_raw_standings session_time drivers pos_lookup lap_lookup team_map
        compound_lookup frame_speed cumtime_lookup retired_drivers)[i]
      (sorted_raw_standings session_time drivers pos_lookup lap_lookup team_map
        compound_lookup frame_speed cumtime_lookup retired_drivers)[j] :=
    List.pairwise_iff_getElem.mp hs i j hi2 hj2 hij
  have hf := standings_le_facts hle
  refine ⟨hf.1, hf.2.1, ?_⟩
  intro p q hra hrb hpa hpb
  have hp1 : 1 ≤ p := position_of_entry_ge_one session_time drivers pos_lookup
    lap_lookup team_map compound_lookup frame_speed cumtime_lookup
    retired_drivers hpos1 _ (List.getElem_mem hi2) p hpa
  have hq1 : 1 ≤ q := position_of_entry_ge_one session_time drivers pos_lookup
    lap_lookup team_map compound_lookup frame_speed cumtime_lookup
    retired_drivers hpos1 _ (List.getElem_mem hj2) q hpb
  exact hf.2.2 (by rw [hra, hrb]) p q hpa hpb hp1 hq1

def c1_pos : String → List (ℚ × ℤ) := fun _ => [(0, 3)]

def c1_lap : String → List (ℚ × ℤ) := fun _ => [(0, 1)]

/-- Concrete standings where two active drivers share recorded position 3. -/
def c1_out : List StandingEntry :=
  get_standings_at_time 10 ["AAA", "BBB"] c1_pos c1_lap (fun _ => "") none
    (fun _ => none) none (fun _ => false)

theorem c1_out_eval :
    c1_out.map (fun s => (s.retired, s.position)) =
      [(false, some 3), (false, some 3)] := by
  norm_num [c1_out, get_standings_at_time, sorted_raw_standings,
    build_raw_standing, List.insertionSort, List.orderedInsert, standings_le,
    bool_nat, pos_or_99, assign_gaps, get_current_position, get_current_lap,
    get_current_compound, step_lookup, cum_time_at, is_retired_at,
    last_known_time, c1_pos, c1_lap, leader_lap_of, leader_cum_of,
    update_prev_cum]

theorem c1_out_length : c1_out.length = 2 := by
  have h := congrArg List.length c1_out_eval
  simpa using h

/-- C1 counterexample to strictness: with both active drivers holding
recorded position 3, the sorted standings contain equal adjacent positions,
so classified active drivers are not in strictly ascending position order. -/
theorem c1_strict_counterexample :
    ¬ (∀ (i j : ℕ) (hi : i < c1_out.length) (hj : j < c1_out.length),
        i < j → c1_out[i].retired = false → c1_out[j].retired = false →
        ∀ p q : ℤ, c1_out[i].position = some p →
          c1_out[j].position = some q → p < q) := by
  intro h
  have h0 : (0:ℕ) < c1_out.length := by rw [c1_out_length]; omega
  have h1 : (1:ℕ) < c1_out.length := by rw [c1_out_length]; omega
  have e0 := congrArg (fun l => l[0]?) c1_out_eval
  have e1 := congrArg (fun l => l[1]?) c1_out_eval
  simp only [List.getElem?_map, List.getElem?_eq_getElem h0,
    List.getElem?_eq_getElem h1, Option.map_some', List.getElem?_cons_zero,
    List.getElem?_cons_succ, Option.some.injEq, Prod.mk.injEq] at e0 e1
  have hlt := h 0 1 h0 h1 (by omega) e0.1 e1.1 3 3 e0.2 e1.2
  omega

def c1w_pos : String → List (ℚ × ℤ) :=
  fun d => if d = "AAA" then [(0, 1)] else [(0, 2)]

/-- Concrete standings with distinct positions 1 and 2 for the witness. -/
def c1w_out : List StandingEntry :=
  get_standings_at_time 10 ["AAA", "BBB"] c1w_pos c1_lap (fun _ => "") none
    (fun _ => none) none (fun _ => false)

theorem c1w_out_eval :
    c1w_out.map (fun s => (s.retired, s.position)) =
      [(false, some 1), (false, some 2)] := by
  norm_num [c1w_out, get_standings_at_time, sorted_raw_standings,
    build_raw_standing, List.insertionSort, List.orderedInsert, standings_le,
    bool_nat, pos_or_99, assign_gaps, get_current_position, get_current_lap,
    get_current_compound, step_lookup, cum_time_at, is_retired_at,
    last_known_time, c1w_pos, c1_lap, leader_lap_of, leader_cum_of,
    update_prev_cum]

theorem c1w_out_length : c1w_out.length = 2 := by
  have h := congrArg List.length c1w_out_eval
  simpa using h

theorem standings_order_invariant_witness :
    c1w_out.length = 2 ∧ (1:ℤ) ≤ 2 := by
  have h0 : (0:ℕ) < c1w_out.length := by rw [c1w_out_length]; omega
  have h1 : (1:ℕ) < c1w_out.length := by rw [c1w_out_length]; omega
  have e0 := congrArg (fun l => l[0]?) c1w_out_eval
  have e1 := congrArg (fun l => l[1]?) c1w_out_eval
  simp only [List.getElem?_map, List.getElem?_eq_getElem h0,
    List.getElem?_eq_getElem h1, Option.map_some', List.getElem?_cons_zero,
    List.getElem?_cons_succ, Option.some.injEq, Prod.mk.injEq] at e0 e1
  have h := standings_order_invariant 10 ["AAA", "BBB"] c1w_pos c1_lap
    (fun _ => "") none (fun _ => none) none (fun _ => false)
    (by intro d e he
        revert he
        unfold c1w_pos
        split <;> (intro he; simp at he; subst he; norm_num))
    c1w_out rfl 0 1 h0 h1 (by omega)
  exact ⟨c1w_out_length, h.2.2 1 2 e0.1 e1.1 e0.2 e1.2⟩

/-- C2: a driver flagged non-finishing whose cumulative-time sequence is
non-empty is marked retired in the standings at query time t exactly when t
exceeds the last cumulative-time data point by more than 120 seconds; in
particular not at `last + 119` and retired at `last + 121`. -/
theorem retirement_grace_window
    (session_time : ℚ) (drivers : List String)
    (pos_lookup lap_lookup : String → List (ℚ × ℤ)) (team_map : String → String)
    (compound_lookup : Option (String → List (ℚ × String × ℤ)))
    (frame_speed : String → Option ℚ)
    (f : String → List (ℤ × ℚ)) (retired_drivers : String → Bool)
    (d : String) (last_lap : ℤ) (last_t : ℚ)
    (hflag : retired_drivers d = true)
    (hlast : (f d).getLast? = some (last_lap, last_t))
    (e : StandingEntry)
    (he : e ∈ get_standings_at_time session_time drivers pos_lookup lap_lookup
      team_map compound_lookup frame_speed (some f) retired_drivers)
    (hd : e.driver = d) :
    e.retired = true ↔ last_t + 120 < session_time := by
  obtain ⟨k, hk, hke⟩ := List.mem_iff_getElem.mp he
  have hlen := get_standings_length session_time drivers pos_lookup lap_lookup
    team_map compound_lookup frame_speed (some f) retired_drivers
  have hk2 : k < (sorted_raw_standings session_time drivers pos_lookup
      lap_lookup team_map compound_lookup frame_speed (some f)
      retired_drivers).length := by rw [← hlen]; exact hk
  have hg := get_standings_getElem session_time drivers pos_lookup lap_lookup
    team_map compound_lookup frame_speed (some f) retired_drivers k hk hk2
  have hr : e.retired = ((sorted_raw_standings session_time drivers pos_lookup
      lap_lookup team_map compound_lookup frame_speed (some f)
      retired_drivers).get ⟨k, hk2⟩).retired := by
    rw [← hke, hg]; rfl
  have hdr : ((sorted_raw_standings session_time drivers pos_lookup lap_lookup
      team_map compound_lookup frame_speed (some f)
      retired_drivers).get ⟨k, hk2⟩).driver = d := by
    rw [← hd, ← hke, hg]; rfl
  have hmem2 : ((sorted_raw_standings session_time drivers pos_lookup
      lap_lookup team_map compound_lookup frame_speed (some f)
      retired_drivers).get ⟨k, hk2⟩) ∈ sorted_raw_standings session_time
      drivers pos_lookup lap_lookup team_map compound_lookup frame_speed
      (some f) retired_drivers := by
    rw [List.get_eq_getElem]
    exact List.getElem_mem hk2
  have hbuild := mem_sorted_raw_standings session_time drivers pos_lookup
    lap_lookup team_map compound_lookup frame_speed (some f) retired_drivers
    _ hmem2
  rw [hdr] at hbuild
  have hret : e.retired =
      is_retired_at session_time d retired_drivers (some f) := by
    rw [hr, hbuild]
    rfl
  rw [hret]
  unfold is_retired_at last_known_time
  simp [hlast, hflag, gt_iff_lt]

def c2_cum : String → List (ℤ × ℚ) := fun _ => [(5, 100)]

/-- Concrete standings at `t = last_known + 121` for a flagged driver. -/
def c2_out : List StandingEntry :=
  get_standings_at_time 221 ["RET"] (fun _ => []) (fun _ => []) (fun _ => "")
    none (fun _ => none) (some c2_cum) (fun _ => true)

theorem c2_out_length : c2_out.length = 1 := by
  simp [c2_out, get_standings_at_time, sorted_raw_standings]

theorem retirement_grace_window_witness :
    c2_out.map (fun s => s.retired) = [true] ∧ (100:ℚ) + 120 < 221 := by
  have h0 : (0:ℕ) < c2_out.length := by rw [c2_out_length]; omega
  have hd : c2_out[0].driver = "RET" := by
    norm_num [c2_out, get_standings_at_time, sorted_raw_standings,
      build_raw_standing, List.insertionSort, List.orderedInsert, standings_le,
      bool_nat, pos_or_99, assign_gaps, get_current_position, get_current_lap,
      step_lookup, cum_time_at, is_retired_at, last_known_time, c2_cum,
      leader_lap_of, leader_cum_of, update_prev_cum]
  have hiff := retirement_grace_window 221 ["RET"] (fun _ => []) (fun _ => [])
    (fun _ => "") none (fun _ => none) c2_cum (fun _ => true) "RET" 5 100 rfl
    rfl c2_out[0] (List.getElem_mem h0) hd
  have hr : c2_out[0].retired = true := hiff.mpr (by norm_num)
  refine ⟨?_, by norm_num⟩
  apply List.ext_getElem (by simp [c2_out_length])
  intro i hi1 hi2
  have hi0 : i = 0 := by
    rw [List.length_map, c2_out_length] at hi1
    omega
  subst hi0
  simpa using hr

theorem leader_lap_of_eq (l : List RawStanding) (h : 0 < l.length) :
    leader_lap_of l = l[0].lap := by
  cases l with
  | nil => simp at h
  | cons a t => rfl

theorem leader_cum_of_eq (l : List RawStanding) (h : 0 < l.length) :
    leader_cum_of l = l[0].cum_time := by
  cases l with
  | nil => simp at h
  | cons a t => rfl

/-- C3 (amended): every non-leader standings entry with a known position
whose current lap is strictly below the leader's gets the lap-deficit string
`"+N LAP(S)"` as its gap, mirrored into the interval — regardless of
cumulative-time data.  (Entries whose position is unknown get an empty gap
instead, see the counterexample.) -/
theorem lap_deficit_gap_string
    (session_time : ℚ) (drivers : List String)
    (pos_lookup lap_lookup : String → List (ℚ × ℤ)) (team_map : String → String)
    (compound_lookup : Option (String → List (ℚ × String × ℤ)))
    (frame_speed : String → Option ℚ)
    (cumtime_lookup : Option (String → List (ℤ × ℚ)))
    (retired_drivers : String → Bool)
    (out : List StandingEntry)
    (hout : out = get_standings_at_time session_time drivers pos_lookup
      lap_lookup team_map compound_lookup frame_speed cumtime_lookup
      retired_drivers)
    (i : ℕ) (hi : i < out.length) (h0i : 0 < i) (h0l : 0 < out.length)
    (hpos : out[i].position ≠ none)
    (hlap : out[i].lap < out[0].lap) :
    out[i].gap = lap_gap_str (out[0].lap - out[i].lap) ∧
    out[i].interval = out[i].gap := by
  subst hout
  have hlen := get_standings_length session_time drivers pos_lookup lap_lookup
    team_map compound_lookup frame_speed cumtime_lookup retired_drivers
  have hi2 : i < (sorted_raw_standings session_time drivers pos_lookup
      lap_lookup team_map compound_lookup frame_speed cumtime_lookup
      retired_drivers).length := by rw [← hlen]; exact hi
  have h02 : 0 < (sorted_raw_standings session_time drivers pos_lookup
      lap_lookup team_map compound_lookup frame_speed cumtime_lookup
      retired_drivers).length := by rw [← hlen]; exact h0l
  have hgi := get_standings_getElem session_time drivers pos_lookup lap_lookup
    team_map compound_lookup frame_speed cumtime_lookup retired_drivers i hi hi2
  have hg0 := get_standings_getElem session_time drivers pos_lookup lap_lookup
    team_map compound_lookup frame_speed cumtime_lookup retired_drivers 0 h0l h02
  rw [hgi] at hpos
  rw [hgi, hg0] at hlap
  simp only [finalize_standing_position, List.get_eq_getElem] at hpos
  simp only [finalize_standing_lap, List.get_eq_getElem] at hlap
  rw [hgi, hg0]
  simp only [finalize_standing_gap, finalize_standing_interval,
    finalize_standing_lap, List.get_eq_getElem]
  have hcond : ¬(i = 0 ∨ (sorted_raw_standings session_time drivers pos_lookup
      lap_lookup team_map compound_lookup frame_speed cumtime_lookup
      retired_drivers)[i].position = none) := by
    push_neg
    exact ⟨by omega, hpos⟩
  have hlap2 : (sorted_raw_standings session_time drivers pos_lookup lap_lookup
      team_map compound_lookup frame_speed cumtime_lookup
      retired_drivers)[i].lap < leader_lap_of (sorted_raw_standings session_time
      drivers pos_lookup lap_lookup team_map compound_lookup frame_speed
      cumtime_lookup retired_drivers) := by
    rw [leader_lap_of_eq _ h02]
    exact hlap
  constructor
  · unfold gap_of
    rw [if_neg hcond, if_pos hlap2, leader_lap_of_eq _ h02]
  · unfold interval_of gap_of
    rw [if_neg hcond, if_pos hlap2, if_neg hcond, if_pos hlap2]

def c3_pos : String → List (ℚ × ℤ) :=
  fun d => if d = "LEC" then [(0, 1)] else [(0, 2)]

def c3_lap : String → List (ℚ × ℤ) :=
  fun d => if d = "LEC" then [(50, 10)] else [(50, 9)]

/-- Concrete standings: leader on lap 10, second driver on lap 9. -/
def c3_out : List StandingEntry :=
  get_standings_at_time 60 ["LEC", "BOT"] c3_pos c3_lap (fun _ => "") none
    (fun _ => none) none (fun _ => false)

theorem c3_out_eval :
    c3_out.map (fun s => (s.lap, s.position)) = [(10, some 1), (9, some 2)] := by
  norm_num [c3_out, get_standings_at_time, sorted_raw_standings,
    build_raw_standing, List.insertionSort, List.orderedInsert, standings_le,
    bool_nat, pos_or_99, assign_gaps, get_current_position, get_current_lap,
    step_lookup, cum_time_at, is_retired_at, last_known_time, c3_pos, c3_lap,
    leader_lap_of, leader_cum_of, update_prev_cum]

theorem c3_out_length : c3_out.length = 2 := by
  have h := congrArg List.length c3_out_eval
  simpa using h

theorem c3_leader_gap_eval : c3_out[0]?.map (fun s => (s.gap, s.interval)) =
    some ("", "") := by
  norm_num [c3_out, get_standings_at_time, sorted_raw_standings,
    build_raw_standing, List.insertionSort, List.orderedInsert, standings_le,
    bool_nat, pos_or_99, assign_gaps, finalize_standing, gap_of, interval_of,
    get_current_position, get_current_lap, step_lookup, cum_time_at,
    is_retired_at, last_known_time, c3_pos, c3_lap, leader_lap_of,
    leader_cum_of, update_prev_cum]

theorem lap_deficit_gap_string_witness :
    c3_out.map (fun s => (s.gap, s.interval)) = [("", ""), ("+1 LAP", "+1 LAP")] := by
  have h0 : (0:ℕ) < c3_out.length := by rw [c3_out_length]; omega
  have h1 : (1:ℕ) < c3_out.length := by rw [c3_out_length]; omega
  have e0 := congrArg (fun l => l[0]?) c3_out_eval
  have e1 := congrArg (fun l => l[1]?) c3_out_eval
  simp only [List.getElem?_map, List.getElem?_eq_getElem h0,
    List.getElem?_eq_getElem h1, Option.map_some', List.getElem?_cons_zero,
    List.getElem?_cons_succ, Option.some.injEq, Prod.mk.injEq] at e0 e1
  have h := lap_deficit_gap_string 60 ["LEC", "BOT"] c3_pos c3_lap (fun _ => "")
    none (fun _ => none) none (fun _ => false) c3_out rfl 1 h1 (by omega) h0
    (by rw [e1.2]; simp) (by rw [e1.1, e0.1]; norm_num)
  have hg1 : c3_out[1].gap = "+1 LAP" := by
    rw [h.1, e0.1, e1.1]
    decide
  have hi1 : c3_out[1].interval = "+1 LAP" := by rw [h.2, hg1]
  have hl0 := c3_leader_gap_eval
  rw [List.getElem?_eq_getElem h0, Option.map_some', Option.some.injEq,
    Prod.mk.injEq] at hl0
  apply List.ext_getElem (by simp [c3_out_length])
  intro k hk1 hk2
  rw [List.length_map, c3_out_length] at hk1
  match k with
  | 0 => simp [hl0.1, hl0.2]
  | 1 => simp [hg1, hi1]

def c3c_pos : String → List (ℚ × ℤ) :=
  fun d => if d = "LEC" then [(0, 1)] else []

/-- Concrete standings where the lap-9 driver has no recorded position. -/
def c3c_out : List StandingEntry :=
  get_standings_at_time 60 ["LEC", "BOT"] c3c_pos c3_lap (fun _ => "") none
    (fun _ => none) (some (fun _ => [(9, 50)])) (fun _ => false)

theorem c3c_out_eval :
    c3c_out.map (fun s => (s.lap, s.gap)) = [(10, ""), (9, "")] := by
  norm_num [c3c_out, get_standings_at_time, sorted_raw_standings,
    build_raw_standing, List.insertionSort, List.orderedInsert, standings_le,
    bool_nat, pos_or_99, assign_gaps, finalize_standing, gap_of, interval_of,
    get_current_position, get_current_lap, step_lookup, cum_time_at,
    is_retired_at, last_known_time, c3c_pos, c3_lap, leader_lap_of,
    leader_cum_of, update_prev_cum]

theorem c3c_out_length : c3c_out.length = 2 := by
  have h := congrArg List.length c3c_out_eval
  simpa using h

/-- C3 counterexample to the claim as stated: a non-leader entry one lap
behind the leader (but with unknown position, cumulative data present)
receives the empty gap string, not `"+1 LAP"`. -/
theorem c3_counterexample :
    ¬ (∀ (i : ℕ) (hi : i < c3c_out.length) (h0l : 0 < c3c_out.length),
        0 < i → c3c_out[i].lap < c3c_out[0].lap →
        c3c_out[i].gap = lap_gap_str (c3c_out[0].lap - c3c_out[i].lap)) := by
  intro h
  have h0 : (0:ℕ) < c3c_out.length := by rw [c3c_out_length]; omega
  have h1 : (1:ℕ) < c3c_out.length := by rw [c3c_out_length]; omega
  have e0 := congrArg (fun l => l[0]?) c3c_out_eval
  have e1 := congrArg (fun l => l[1]?) c3c_out_eval
  simp only [List.getElem?_map, List.getElem?_eq_getElem h0,
    List.getElem?_eq_getElem h1, Option.map_some', List.getElem?_cons_zero,
    List.getElem?_cons_succ, Option.some.injEq, Prod.mk.injEq] at e0 e1
  have hlt := h 1 h1 h0 (by omega) (by rw [e1.1, e0.1]; norm_num)
  rw [e1.2, e0.1, e1.1] at hlt
  exact absurd hlt (by decide)

theorem entry_cum_time (session_time : ℚ) (drivers : List String)
    (pos_lookup lap_lookup : String → List (ℚ × ℤ)) (team_map : String → String)
    (compound_lookup : Option (String → List (ℚ × String × ℤ)))
    (frame_speed : String → Option ℚ)
    (cumtime_lookup : Option (String → List (ℤ × ℚ)))
    (retired_drivers : String → Bool) (k : ℕ)
    (hk : k < (sorted_raw_standings session_time drivers pos_lookup lap_lookup
      team_map compound_lookup frame_speed cumtime_lookup
      retired_drivers).length) :
    (sorted_raw_standings session_time drivers pos_lookup lap_lookup team_map
      compound_lookup frame_speed cumtime_lookup retired_drivers)[k].cum_time =
    cum_time_at session_time cumtime_lookup
      (sorted_raw_standings session_time drivers pos_lookup lap_lookup team_map
        compound_lookup frame_speed cumtime_lookup retired_drivers)[k].driver := by
  have hbuild := mem_sorted_raw_standings session_time drivers pos_lookup
    lap_lookup team_map compound_lookup frame_speed cumtime_lookup
    retired_drivers _ (List.getElem_mem hk)
  conv_lhs => rw [hbuild]
  rfl

/-- C4 (amended): a non-leader entry with a known position, on the leader's
lap, with both its own and the leader's cumulative times available, gets as
gap the cumulative-time difference to the leader rendered to one decimal
with a leading `+` and trailing `s` when it exceeds the 0.05 s noise floor,
and the empty string otherwise.  (A position-less entry gets an empty gap
even above the noise floor, see the counterexample.) -/
theorem gap_noise_floor
    (session_time : ℚ) (drivers : List String)
    (pos_lookup lap_lookup : String → List (ℚ × ℤ)) (team_map : String → String)
    (compound_lookup : Option (String → List (ℚ × String × ℤ)))
    (frame_speed : String → Option ℚ)
    (cumtime_lookup : Option (String → List (ℤ × ℚ)))
    (retired_drivers : String → Bool)
    (out : List StandingEntry)
    (hout : out = get_standings_at_time session_time drivers pos_lookup
      lap_lookup team_map compound_lookup frame_speed cumtime_lookup
      retired_drivers)
    (i : ℕ) (hi : i < out.length) (h0i : 0 < i) (h0l : 0 < out.length)
    (hpos : out[i].position ≠ none)
    (hlap : out[i].lap = out[0].lap)
    (lc c : ℚ)
    (hlc : cum_time_at session_time cumtime_lookup out[0].driver = some lc)
    (hc : cum_time_at session_time cumtime_lookup out[i].driver = some c) :
    out[i].gap = if c - lc > 0.05 then fmt_gap_secs (c - lc) else "" := by
  subst hout
  have hlen := get_standings_length session_time drivers pos_lookup lap_lookup
    team_map compound_lookup frame_speed cumtime_lookup retired_drivers
  have hi2 : i < (sorted_raw_standings session_time drivers pos_lookup
      lap_lookup team_map compound_lookup frame_speed cumtime_lookup
      retired_drivers).length := by rw [← hlen]; exact hi
  have h02 : 0 < (sorted_raw_standings session_time drivers pos_lookup
      lap_lookup team_map compound_lookup frame_speed cumtime_lookup
      retired_drivers).length := by rw [← hlen]; exact h0l
  have hgi := get_standings_getElem session_time drivers pos_lookup lap_lookup
    team_map compound_lookup frame_speed cumtime_lookup retired_drivers i hi hi2
  have hg0 := get_standings_getElem session_time drivers pos_lookup lap_lookup
    team_map compound_lookup frame_speed cumtime_lookup retired_drivers 0 h0l h02
  rw [hgi] at hpos hc
  rw [hg0] at hlc
  rw [hgi, hg0] at hlap
  simp only [finalize_standing_position, finalize_standing_driver,
    finalize_standing_lap, List.get_eq_getElem] at hpos hc hlc hlap
  rw [hgi]
  simp only [finalize_standing_gap, List.get_eq_getElem]
  have hcum_i : (sorted_raw_standings session_time drivers pos_lookup
      lap_lookup team_map compound_lookup frame_speed cumtime_lookup
      retired_drivers)[i].cum_time = some c := by
    rw [entry_cum_time session_time drivers pos_lookup lap_lookup team_map
      compound_lookup frame_speed cumtime_lookup retired_drivers i hi2]
    exact hc
  have hcum_0 : (sorted_raw_standings session_time drivers pos_lookup
      lap_lookup team_map compound_lookup frame_speed cumtime_lookup
      retired_drivers)[0].cum_time = some lc := by
    rw [entry_cum_time session_time drivers pos_lookup lap_lookup team_map
      compound_lookup frame_speed cumtime_lookup retired_drivers 0 h02]
    exact hlc
  have hcond : ¬(i = 0 ∨ (sorted_raw_standings session_time drivers pos_lookup
      lap_lookup team_map compound_lookup frame_speed cumtime_lookup
      retired_drivers)[i].position = none) := by
    push_neg
    exact ⟨by omega, hpos⟩
  have hnotlt : ¬((sorted_raw_standings session_time drivers pos_lookup
      lap_lookup team_map compound_lookup frame_speed cumtime_lookup
      retired_drivers)[i].lap < leader_lap_of (sorted_raw_standings session_time
      drivers pos_lookup lap_lookup team_map compound_lookup frame_speed
      cumtime_lookup retired_drivers)) := by
    rw [leader_lap_of_eq _ h02, hlap]
    exact lt_irrefl _
  unfold gap_of
  rw [if_neg hcond, if_neg hnotlt, leader_cum_of_eq _ h02, hcum_0, hcum_i]

def c4_pos : String → List (ℚ × ℤ) :=
  fun d => if d = "VER" then [(0, 1)] else if d = "PER" then [(0, 2)] else [(0, 3)]

def c4_lap : String → List (ℚ × ℤ) := fun _ => [(50, 5)]

def c4_cum : String → List (ℤ × ℚ) :=
  fun d =>
    if d = "VER" then [(5, 100)]
    else if d = "PER" then [(5, 100 + 2/25)]
    else [(5, 100 + 3/100)]

/-- Concrete standings with cumulative gaps of 0.08 s and 0.03 s to the
leader, all on the same lap. -/
def c4_out : List StandingEntry :=
  get_standings_at_time 110 ["VER", "PER", "HAM"] c4_pos c4_lap (fun _ => "")
    none (fun _ => none) (some c4_cum) (fun _ => false)

theorem c4_out_eval :
    c4_out.map (fun s => (s.driver, s.position, s.lap)) =
      [("VER", some 1, 5), ("PER", some 2, 5), ("HAM", some 3, 5)] := by
  norm_num [c4_out, get_standings_at_time, sorted_raw_standings,
    build_raw_standing, List.insertionSort, List.orderedInsert, standings_le,
    bool_nat, pos_or_99, assign_gaps, get_current_position, get_current_lap,
    step_lookup, cum_time_at, is_retired_at, last_known_time, c4_pos, c4_lap,
    c4_cum, leader_lap_of, leader_cum_of, update_prev_cum]

theorem c4_out_length : c4_out.length = 3 := by
  have h := congrArg List.length c4_out_eval
  simpa using h

theorem gap_noise_floor_witness :
    c4_out.map (fun s => s.gap) = ["", "+0.1s", ""] := by
  have h0 : (0:ℕ) < c4_out.length := by rw [c4_out_length]; omega
  have h1 : (1:ℕ) < c4_out.length := by rw [c4_out_length]; omega
  have h2 : (2:ℕ) < c4_out.length := by rw [c4_out_length]; omega
  have e0 := congrArg (fun l => l[0]?) c4_out_eval
  have e1 := congrArg (fun l => l[1]?) c4_out_eval
  have e2 := congrArg (fun l => l[2]?) c4_out_eval
  simp only [List.getElem?_map, List.getElem?_eq_getElem h0,
    List.getElem?_eq_getElem h1, List.getElem?_eq_getElem h2,
    Option.map_some', List.getElem?_cons_zero, List.getElem?_cons_succ,
    Option.some.injEq, Prod.mk.injEq] at e0 e1 e2
  have hlc : cum_time_at 110 (some c4_cum) c4_out[0].driver = some 100 := by
    rw [e0.1]
    show ((c4_cum ("VER")).reverse.find? fun e =>
      decide (e.2 ≤ 110)).map (·.2) = some 100
    rw [show c4_cum ("VER") = [(5, 100)] by unfold c4_cum; rw [if_pos rfl]]
    simp only [List.reverse_cons, List.reverse_nil, List.nil_append]
    rw [List.find?_cons_of_pos _ (by norm_num)]
    rfl
  have hc1 : cum_time_at 110 (some c4_cum) c4_out[1].driver =
      some (100 + 2/25) := by
    rw [e1.1]
    show ((c4_cum ("PER")).reverse.find? fun e =>
      decide (e.2 ≤ 110)).map (·.2) = some (100 + 2/25)
    rw [show c4_cum ("PER") = [(5, 100 + 2/25)] by
      unfold c4_cum; rw [if_neg (by decide), if_pos rfl]]
    simp only [List.reverse_cons, List.reverse_nil, List.nil_append]
    rw [List.find?_cons_of_pos _ (by norm_num)]
    rfl
  have hc2 : cum_time_at 110 (some c4_cum) c4_out[2].driver =
      some (100 + 3/100) := by
    rw [e2.1]
    show ((c4_cum ("HAM")).reverse.find? fun e =>
      decide (e.2 ≤ 110)).map (·.2) = some (100 + 3/100)
    rw [show c4_cum ("HAM") = [(5, 100 + 3/100)] by
      unfold c4_cum; rw [if_neg (by decide), if_neg (by decide)]]
    simp only [List.reverse_cons, List.reverse_nil, List.nil_append]
    rw [List.find?_cons_of_pos _ (by norm_num)]
    rfl
  have hgap1 := gap_noise_floor 110 ["VER", "PER", "HAM"] c4_pos c4_lap
    (fun _ => "") none (fun _ => none) (some c4_cum) (fun _ => false) c4_out rfl
    1 h1 (by omega) h0 (by rw [e1.2.1]; simp) (by rw [e1.2.2, e0.2.2])
    100 (100 + 2/25) hlc hc1
  rw [if_pos (by norm_num)] at hgap1
  have hg1 : c4_out[1].gap = "+0.1s" := by
    rw [hgap1]
    unfold fmt_gap_secs
    rw [show |((100:ℚ) + 2/25) - 100| = 2/25 by
      rw [show ((100:ℚ) + 2/25) - 100 = 2/25 by norm_num]
      rw [abs_of_pos (by norm_num)]]
    rw [show (2/25 : ℚ) * 10 + 1/2 = 13/10 by norm_num]
    norm_num
    decide
  have hgap2 := gap_noise_floor 110 ["VER", "PER", "HAM"] c4_pos c4_lap
    (fun _ => "") none (fun _ => none) (some c4_cum) (fun _ => false) c4_out rfl
    2 h2 (by omega) h0 (by rw [e2.2.1]; simp) (by rw [e2.2.2, e0.2.2])
    100 (100 + 3/100) hlc hc2
  rw [if_neg (by norm_num)] at hgap2
  have hg0 : c4_out[0].gap = "" := by
    have hlen := get_standings_length 110 ["VER", "PER", "HAM"] c4_pos c4_lap
      (fun _ => "") none (fun _ => none) (some c4_cum) (fun _ => false)
    have h02 : 0 < (sorted_raw_standings 110 ["VER", "PER", "HAM"] c4_pos
        c4_lap (fun _ => "") none (fun _ => none) (some c4_cum)
        (fun _ => false)).length := by
      rw [← hlen]
      exact h0
    have hg := get_standings_getElem 110 ["VER", "PER", "HAM"] c4_pos c4_lap
      (fun _ => "") none (fun _ => none) (some c4_cum) (fun _ => false) 0 h0 h02
    rw [show c4_out[0] = (get_standings_at_time 110 ["VER", "PER", "HAM"]
      c4_pos c4_lap (fun _ => "") none (fun _ => none) (some c4_cum)
      (fun _ => false))[0] from rfl, hg]
    simp only [finalize_standing_gap]
    unfold gap_of
    rw [if_pos (Or.inl rfl)]
  apply List.ext_getElem (by simp [c4_out_length])
  intro k hk1 hk2
  rw [List.length_map, c4_out_length] at hk1
  match k with
  | 0 => simpa using hg0
  | 1 => simpa using hg1
  | 2 => simpa using hgap2

def c4c_pos : String → List (ℚ × ℤ) :=
  fun d => if d = "LEC" then [(0, 1)] else []

def c4c_lap : String → List (ℚ × ℤ) := fun _ => [(50, 5)]

def c4c_cum : String → List (ℤ × ℚ) :=
  fun d => if d = "LEC" then [(5, 100)] else [(5, 101)]

/-- Concrete standings where the trailing driver has no recorded position
but a cumulative time 1 s behind the leader, on the same lap. -/
def c4c_out : List StandingEntry :=
  get_standings_at_time 110 ["LEC", "NOP"] c4c_pos c4c_lap (fun _ => "") none
    (fun _ => none) (some c4c_cum) (fun _ => false)

theorem c4c_out_eval :
    c4c_out.map (fun s => (s.driver, s.lap, s.gap)) =
      [("LEC", 5, ""), ("NOP", 5, "")] := by
  norm_num [c4c_out, get_standings_at_time, sorted_raw_standings,
    build_raw_standing, List.insertionSort, List.orderedInsert, standings_le,
    bool_nat, pos_or_99, assign_gaps, finalize_standing, gap_of, interval_of,
    get_current_position, get_current_lap, step_lookup, cum_time_at,
    is_retired_at, last_known_time, c4c_pos, c4c_lap, c4c_cum, leader_lap_of,
    leader_cum_of, update_prev_cum]

theorem c4c_out_length : c4c_out.length = 2 := by
  have h := congrArg List.length c4c_out_eval
  simpa using h

/-- C4 counterexample to the claim as stated: a non-leader entry on the
leader's lap with both cumulative times available (1 s apart, well above the
noise floor) but unknown position gets gap `""`, not `"+1.0s"`. -/
theorem c4_counterexample :
    ¬ (∀ (i : ℕ) (hi : i < c4c_out.length) (h0l : 0 < c4c_out.length)
        (lc c : ℚ), 0 < i → c4c_out[i].lap = c4c_out[0].lap →
        cum_time_at 110 (some c4c_cum) c4c_out[0].driver = some lc →
        cum_time_at 110 (some c4c_cum) c4c_out[i].driver = some c →
        c4c_out[i].gap = if c - lc > 0.05 then fmt_gap_secs (c - lc) else "") := by
  intro h
  have h0 : (0:ℕ) < c4c_out.length := by rw [c4c_out_length]; omega
  have h1 : (1:ℕ) < c4c_out.length := by rw [c4c_out_length]; omega
  have e0 := congrArg (fun l => l[0]?) c4c_out_eval
  have e1 := congrArg (fun l => l[1]?) c4c_out_eval
  simp only [List.getElem?_map, List.getElem?_eq_getElem h0,
    List.getElem?_eq_getElem h1, Option.map_some', List.getElem?_cons_zero,
    List.getElem?_cons_succ, Option.some.injEq, Prod.mk.injEq] at e0 e1
  have hlc : cum_time_at 110 (some c4c_cum) c4c_out[0].driver = some 100 := by
    rw [e0.1]
    show ((c4c_cum ("LEC")).reverse.find? fun e =>
      decide (e.2 ≤ 110)).map (·.2) = some 100
    rw [show c4c_cum ("LEC") = [(5, 100)] by unfold c4c_cum; rw [if_pos rfl]]
    simp only [List.reverse_cons, List.reverse_nil, List.nil_append]
    rw [List.find?_cons_of_pos _ (by norm_num)]
    rfl
  have hc : cum_time_at 110 (some c4c_cum) c4c_out[1].driver = some 101 := by
    rw [e1.1]
    show ((c4c_cum ("NOP")).reverse.find? fun e =>
      decide (e.2 ≤ 110)).map (·.2) = some 101
    rw [show c4c_cum ("NOP") = [(5, 101)] by
      unfold c4c_cum; rw [if_neg (by decide)]]
    simp only [List.reverse_cons, List.reverse_nil, List.nil_append]
    rw [List.find?_cons_of_pos _ (by norm_num)]
    rfl
  have hgap := h 1 h1 h0 100 101 (by omega) (by rw [e1.2.1, e0.2.1]) hlc hc
  rw [if_pos (by norm_num), e1.2.2] at hgap
  have hfmt : fmt_gap_secs ((101:ℚ) - 100) = "+1.0s" := by
    unfold fmt_gap_secs
    rw [show |(101:ℚ) - 100| = 1 by
      rw [show (101:ℚ) - 100 = 1 by norm_num]
      rw [abs_of_pos (by norm_num)]]
    rw [show (1 : ℚ) * 10 + 1/2 = 21/2 by norm_num]
    norm_num
    decide
  rw [hfmt] at hgap
  exact absurd hgap (by decide)

theorem take_one_of_pos {α : Type} (l : List α) (h : 0 < l.length) :
    l.take 1 = [l[0]] := by
  cases l with
  | nil => simp at h
  | cons a t => simp

theorem interval_of_cum_branch (L : ℤ) (lc c pc : ℚ) (idx : ℕ)
    (s : RawStanding) (hidx : ¬(idx = 0 ∨ s.position = none))
    (hlap : ¬(s.lap < L)) (hc : s.cum_time = some c) (h0 : 0 < idx) :
    interval_of L (some lc) idx (some pc) s =
      if c - pc > 0.05 then fmt_gap_secs (c - pc) else "" := by
  unfold interval_of
  rw [if_neg hidx, if_neg hlap, hc]
  show (if idx > 0 then (if c - pc > 0.05 then fmt_gap_secs (c - pc) else "")
    else gap_of L (some lc) idx s) = _
  rw [if_pos h0]

theorem interval_of_first_nonleader (L : ℤ) (s0 s : RawStanding) :
    interval_of L s0.cum_time 1 (update_prev_cum s0.cum_time s0) s =
      gap_of L s0.cum_time 1 s := by
  have hupd : update_prev_cum s0.cum_time s0 = s0.cum_time := by
    unfold update_prev_cum
    cases s0.cum_time <;> rfl
  rw [hupd]
  by_cases h1 : ((1:ℕ) = 0 ∨ s.position = none)
  · unfold interval_of gap_of
    rw [if_pos h1, if_pos h1]
  · by_cases h2 : s.lap < L
    · unfold interval_of gap_of
      rw [if_neg h1, if_neg h1, if_pos h2, if_pos h2]
    · cases hc0 : s0.cum_time with
      | none =>
          cases hsc : s.cum_time with
          | none =>
              unfold interval_of
              rw [if_neg h1, if_neg h2, hsc]
              show ("" : String) = gap_of L none 1 s
              unfold gap_of
              rw [if_neg h1, if_neg h2, hsc]
          | some c =>
              unfold interval_of
              rw [if_neg h1, if_neg h2, hsc]
              show ("" : String) = gap_of L none 1 s
              unfold gap_of
              rw [if_neg h1, if_neg h2, hsc]
      | some lc =>
          cases hsc : s.cum_time with
          | none =>
              unfold interval_of
              rw [if_neg h1, if_neg h2, hsc]
              show ("" : String) = gap_of L (some lc) 1 s
              unfold gap_of
              rw [if_neg h1, if_neg h2, hsc]
          | some c =>
              unfold interval_of
              rw [if_neg h1, if_neg h2, hsc]
              show (if 1 > 0 then
                  (if c - lc > 0.05 then fmt_gap_secs (c - lc) else "")
                else gap_of L (some lc) 1 s) = gap_of L (some lc) 1 s
              rw [if_pos (by omega)]
              unfold gap_of
              rw [if_neg h1, if_neg h2, hsc]

/-- C5 (amended): a non-leader entry with known position, not lap-deficient,
whose cumulative time and the leader's are both available, gets as interval
the cumulative-time difference to the `prev_cum` state — the most recent
preceding entry with an available cumulative time, seeded with the leader's
(the car immediately ahead only when that car's cumulative time is
available, see the counterexample) — rendered like the leader gap; and the
very first non-leader entry's interval always equals its gap-to-leader. -/
theorem interval_prev_cum_and_first_fallback
    (session_time : ℚ) (drivers : List String)
    (pos_lookup lap_lookup : String → List (ℚ × ℤ)) (team_map : String → String)
    (compound_lookup : Option (String → List (ℚ × String × ℤ)))
    (frame_speed : String → Option ℚ)
    (cumtime_lookup : Option (String → List (ℤ × ℚ)))
    (retired_drivers : String → Bool)
    (out : List StandingEntry)
    (hout : out = get_standings_at_time session_time drivers pos_lookup
      lap_lookup team_map compound_lookup frame_speed cumtime_lookup
      retired_drivers) :
    (∀ (i : ℕ) (hi : i < out.length) (h0i : 0 < i) (h0l : 0 < out.length)
        (lc c pc : ℚ), out[i].position ≠ none → ¬(out[i].lap < out[0].lap) →
        cum_time_at session_time cumtime_lookup out[0].driver = some lc →
        cum_time_at session_time cumtime_lookup out[i].driver = some c →
        prev_cum_after (some lc) ((sorted_raw_standings session_time drivers
          pos_lookup lap_lookup team_map compound_lookup frame_speed
          cumtime_lookup retired_drivers).take i) = some pc →
        out[i].interval = if c - pc > 0.05 then fmt_gap_secs (c - pc) else "") ∧
    (∀ h1 : 1 < out.length, out[1].interval = out[1].gap) := by
  subst hout
  have hlen := get_standings_length session_time drivers pos_lookup lap_lookup
    team_map compound_lookup frame_speed cumtime_lookup retired_drivers
  constructor
  · intro i hi h0i h0l lc c pc hpos hnotlt hlc hc hpc
    have hi2 : i < (sorted_raw_standings session_time drivers pos_lookup
        lap_lookup team_map compound_lookup frame_speed cumtime_lookup
        retired_drivers).length := by rw [← hlen]; exact hi
    have h02 : 0 < (sorted_raw_standings session_time drivers pos_lookup
        lap_lookup team_map compound_lookup frame_speed cumtime_lookup
        retired_drivers).length := by rw [← hlen]; exact h0l
    have hgi := get_standings_getElem session_time drivers pos_lookup
      lap_lookup team_map compound_lookup frame_speed cumtime_lookup
      retired_drivers i hi hi2
    have hg0 := get_standings_getElem session_time drivers pos_lookup
      lap_lookup team_map compound_lookup frame_speed cumtime_lookup
      retired_drivers 0 h0l h02
    rw [hgi] at hpos hc
    rw [hg0] at hlc
    rw [hgi, hg0] at hnotlt
    simp only [finalize_standing_position, finalize_standing_driver,
      finalize_standing_lap, List.get_eq_getElem] at hpos hc hlc hnotlt
    have hcum_i : (sorted_raw_standings session_time drivers pos_lookup
        lap_lookup team_map compound_lookup frame_speed cumtime_lookup
        retired_drivers)[i].cum_time = some c := by
      rw [entry_cum_time session_time drivers pos_lookup lap_lookup team_map
        compound_lookup frame_speed cumtime_lookup retired_drivers i hi2]
      exact hc
    have hC : leader_cum_of (sorted_raw_standings session_time drivers
        pos_lookup lap_lookup team_map compound_lookup frame_speed
        cumtime_lookup retired_drivers) = some lc := by
      rw [leader_cum_of_eq _ h02,
        entry_cum_time session_time drivers pos_lookup lap_lookup team_map
          compound_lookup frame_speed cumtime_lookup retired_drivers 0 h02]
      exact hlc
    have hcond : ¬(i = 0 ∨ (sorted_raw_standings session_time drivers
        pos_lookup lap_lookup team_map compound_lookup frame_speed
        cumtime_lookup retired_drivers)[i].position = none) := by
      push_neg
      exact ⟨by omega, hpos⟩
    have hnotlt2 : ¬((sorted_raw_standings session_time drivers pos_lookup
        lap_lookup team_map compound_lookup frame_speed cumtime_lookup
        retired_drivers)[i].lap < leader_lap_of (sorted_raw_standings
        session_time drivers pos_lookup lap_lookup team_map compound_lookup
        frame_speed cumtime_lookup retired_drivers)) := by
      rw [leader_lap_of_eq _ h02]
      exact hnotlt
    rw [hgi]
    simp only [finalize_standing_interval, List.get_eq_getElem]
    rw [hC, hpc]
    exact interval_of_cum_branch _ lc c pc i _ hcond hnotlt2 hcum_i h0i
  · intro h1
    have h0l : 0 < (get_standings_at_time session_time drivers pos_lookup
        lap_lookup team_map compound_lookup frame_speed cumtime_lookup
        retired_drivers).length := by omega
    have h12 : 1 < (sorted_raw_standings session_time drivers pos_lookup
        lap_lookup team_map compound_lookup frame_speed cumtime_lookup
        retired_drivers).length := by rw [← hlen]; exact h1
    have h02 : 0 < (sorted_raw_standings session_time drivers pos_lookup
        lap_lookup team_map compound_lookup frame_speed cumtime_lookup
        retired_drivers).length := by omega
    have hg1 := get_standings_getElem session_time drivers pos_lookup
      lap_lookup team_map compound_lookup frame_speed cumtime_lookup
      retired_drivers 1 h1 h12
    rw [hg1]
    simp only [finalize_standing_interval, finalize_standing_gap,
      List.get_eq_getElem]
    rw [take_one_of_pos _ h02, leader_cum_of_eq _ h02]
    exact interval_of_first_nonleader _ _ _

def c5_pos : String → List (ℚ × ℤ) :=
  fun d => if d = "LL" then [(0, 1)] else if d = "MM" then [(0, 2)] else [(0, 3)]

def c5_lap : String → List (ℚ × ℤ) := fun _ => [(50, 5)]

def c5_cum : String → List (ℤ × ℚ) :=
  fun d =>
    if d = "LL" then [(5, 100)]
    else if d = "MM" then [(5, 200)]
    else [(5, 110)]

/-- Concrete standings where the middle driver has no available cumulative
time at the query time (its only data point lies in the future), while the
third driver trails the leader by 10 s. -/
def c5_out : List StandingEntry :=
  get_standings_at_time 110 ["LL", "MM", "TT"] c5_pos c5_lap (fun _ => "")
    none (fun _ => none) (some c5_cum) (fun _ => false)

theorem c5_gap_interval_eval : c5_out.map (fun s => (s.gap, s.interval)) =
    [("", ""), ("", ""), ("+10.0s", "+10.0s")] := by
  norm_num [c5_out, get_standings_at_time, sorted_raw_standings,
    build_raw_standing, List.insertionSort, List.orderedInsert, standings_le,
    bool_nat, pos_or_99, assign_gaps, finalize_standing, gap_of, interval_of,
    fmt_gap_secs, get_current_position, get_current_lap, step_lookup,
    cum_time_at, is_retired_at, last_known_time, List.find?, c5_pos, c5_lap,
    c5_cum, leader_lap_of, leader_cum_of, update_prev_cum]
  decide

theorem c5_out_dpl_eval :
    c5_out.map (fun s => (s.driver, s.position, s.lap)) =
      [("LL", some 1, 5), ("MM", some 2, 5), ("TT", some 3, 5)] := by
  norm_num [c5_out, get_standings_at_time, sorted_raw_standings,
    build_raw_standing, List.insertionSort, List.orderedInsert, standings_le,
    bool_nat, pos_or_99, assign_gaps, get_current_position, get_current_lap,
    step_lookup, cum_time_at, is_retired_at, last_known_time, List.find?,
    c5_pos, c5_lap, c5_cum, leader_lap_of, leader_cum_of, update_prev_cum]

theorem c5_out_length : c5_out.length = 3 := by
  have h := congrArg List.length c5_out_dpl_eval
  simpa using h

theorem c5_sorted_cum_eval :
    (sorted_raw_standings 110 ["LL", "MM", "TT"] c5_pos c5_lap (fun _ => "")
      none (fun _ => none) (some c5_cum) (fun _ => false)).map
      (fun r => r.cum_time) = [some 100, none, some 110] := by
  norm_num [sorted_raw_standings, build_raw_standing, List.insertionSort,
    List.orderedInsert, standings_le, bool_nat, pos_or_99,
    get_current_position, get_current_lap, step_lookup, cum_time_at,
    is_retired_at, last_known_time, List.find?, c5_pos, c5_lap, c5_cum]

theorem c5_interval_map_eval :
    c5_out.map (fun s => s.interval) = ["", "", "+10.0s"] := by
  have h := congrArg (List.map Prod.snd) c5_gap_interval_eval
  simpa [List.map_map, Function.comp] using h

theorem interval_prev_cum_witness :
    c5_out.length = 3 ∧
    c5_out.map (fun s => s.interval) = ["", "", "+10.0s"] := by
  have h0 : (0:ℕ) < c5_out.length := by rw [c5_out_length]; omega
  have h1 : (1:ℕ) < c5_out.length := by rw [c5_out_length]; omega
  have h2 : (2:ℕ) < c5_out.length := by rw [c5_out_length]; omega
  have e0 := congrArg (fun l => l[0]?) c5_out_dpl_eval
  have e2 := congrArg (fun l => l[2]?) c5_out_dpl_eval
  simp only [List.getElem?_map, List.getElem?_eq_getElem h0,
    List.getElem?_eq_getElem h2, Option.map_some', List.getElem?_cons_zero,
    List.getElem?_cons_succ, Option.some.injEq, Prod.mk.injEq] at e0 e2
  have hlc : cum_time_at 110 (some c5_cum) c5_out[0].driver = some 100 := by
    rw [e0.1]
    show ((c5_cum ("LL")).reverse.find? fun e =>
      decide (e.2 ≤ 110)).map (·.2) = some 100
    rw [show c5_cum ("LL") = [(5, 100)] by unfold c5_cum; rw [if_pos rfl]]
    simp only [List.reverse_cons, List.reverse_nil, List.nil_append]
    rw [List.find?_cons_of_pos _ (by norm_num)]
    rfl
  have hc : cum_time_at 110 (some c5_cum) c5_out[2].driver = some 110 := by
    rw [e2.1]
    show ((c5_cum ("TT")).reverse.find? fun e =>
      decide (e.2 ≤ 110)).map (·.2) = some 110
    rw [show c5_cum ("TT") = [(5, 110)] by
      unfold c5_cum; rw [if_neg (by decide), if_neg (by decide)]]
    simp only [List.reverse_cons, List.reverse_nil, List.nil_append]
    rw [List.find?_cons_of_pos _ (by norm_num)]
    rfl
  have hpc : prev_cum_after (some 100) ((sorted_raw_standings 110
      ["LL", "MM", "TT"] c5_pos c5_lap (fun _ => "") none (fun _ => none)
      (some c5_cum) (fun _ => false)).take 2) = some 100 := by
    norm_num [sorted_raw_standings, build_raw_standing, List.insertionSort,
      List.orderedInsert, standings_le, bool_nat, pos_or_99,
      get_current_position, get_current_lap, step_lookup, cum_time_at,
      is_retired_at, last_known_time, List.find?, c5_pos, c5_lap, c5_cum,
      prev_cum_after, update_prev_cum, List.take]
  have h := interval_prev_cum_and_first_fallback 110 ["LL", "MM", "TT"] c5_pos
    c5_lap (fun _ => "") none (fun _ => none) (some c5_cum) (fun _ => false)
    c5_out rfl
  have hitv2 := h.1 2 h2 (by omega) h0 100 110 100
    (by rw [e2.2.1]; simp) (by rw [e2.2.2, e0.2.2]; omega) hlc hc hpc
  rw [if_pos (by norm_num)] at hitv2
  have hi2 : c5_out[2].interval = "+10.0s" := by
    rw [hitv2]
    unfold fmt_gap_secs
    rw [show |(110:ℚ) - 100| = 10 by
      rw [show (110:ℚ) - 100 = 10 by norm_num]
      rw [abs_of_pos (by norm_num)]]
    rw [show (10 : ℚ) * 10 + 1/2 = 201/2 by norm_num]
    norm_num
    decide
  have hfall := h.2 h1
  have g0 := congrArg (fun l => l[0]?) c5_gap_interval_eval
  have g1 := congrArg (fun l => l[1]?) c5_gap_interval_eval
  simp only [List.getElem?_map, List.getElem?_eq_getElem h0,
    List.getElem?_eq_getElem h1, Option.map_some', List.getElem?_cons_zero,
    List.getElem?_cons_succ, Option.some.injEq, Prod.mk.injEq] at g0 g1
  have hi1 : c5_out[1].interval = "" := by rw [hfall, g1.1]
  refine ⟨c5_out_length, ?_⟩
  apply List.ext_getElem (by simp [c5_out_length])
  intro k hk1 hk2
  rw [List.length_map, c5_out_length] at hk1
  match k with
  | 0 => simpa using g0.2
  | 1 => simpa using hi1
  | 2 => simpa using hi2

/-- Follows the words of claim C5, not the source: the interval of a
non-leader entry is the gap to the car immediately ahead in sorted order,
computed the same way as the leader gap against that car's cumulative time —
empty when either cumulative time is unavailable or the difference is within
the noise floor. -/
def interval_spec_vs_ahead (ahead_cum cur_cum : Option ℚ) : String :=
  match ahead_cum, cur_cum with
  | some pc, some c => if c - pc > 0.05 then fmt_gap_secs (c - pc) else ""
  | _, _ => ""

/-- C5 counterexample to the claim as stated: in the sorted standings the
cumulative times are `[some 100, none, some 110]`, so the entry at index 2
has a car immediately ahead with no cumulative time — the claim's
per-the-previous-driver interval is `""` — yet the code reports `"+10.0s"`,
computed against the leader two places ahead. -/
theorem c5_counterexample :
    (sorted_raw_standings 110 ["LL", "MM", "TT"] c5_pos c5_lap (fun _ => "")
      none (fun _ => none) (some c5_cum) (fun _ => false)).map
      (fun r => r.cum_time) = [some 100, none, some 110] ∧
    interval_spec_vs_ahead none (some 110) = "" ∧
    c5_out.map (fun s => s.interval) = ["", "", "+10.0s"] ∧
    ("+10.0s" : String) ≠ "" :=
  ⟨c5_sorted_cum_eval, rfl, c5_interval_map_eval, by decide⟩

/-- Embeds `np.interp(q, t, v, left=np.nan, right=np.nan)` as used in
`build_replay_data` (replay_engine.py lines 121-123 and 138-152) on a
time-sorted sample list: `none` models NaN (query before the first or after
the last sample), otherwise linear interpolation between the surrounding
samples, exact at sample points. -/
def np_interp : List (ℚ × ℚ) → ℚ → Option ℚ
  | [], _ => none
  | [(t, v)], q => if q = t then some v else none
  | (t1, v1) :: (t2, v2) :: rest, q =>
      if q < t1 then none
      else if q ≤ t2 then some (v1 + (v2 - v1) * (q - t1) / (t2 - t1))
      else np_interp ((t2, v2) :: rest) q

theorem np_interp_before : ∀ (l : List (ℚ × ℚ)) (q : ℚ),
    (∀ e ∈ l, q < e.1) → np_interp l q = none
  | [], _, _ => rfl
  | [(t, v)], q, h => by
      have ht := h (t, v) (by simp)
      unfold np_interp
      rw [if_neg (by exact ne_of_lt ht)]
  | (t1, v1) :: (t2, v2) :: rest, q, h => by
      have h1 := h (t1, v1) (by simp)
      unfold np_interp
      rw [if_pos h1]

theorem np_interp_after : ∀ (l : List (ℚ × ℚ)) (q : ℚ),
    (∀ e ∈ l, e.1 < q) → np_interp l q = none
  | [], _, _ => rfl
  | [(t, v)], q, h => by
      have ht := h (t, v) (by simp)
      unfold np_interp
      rw [if_neg (by exact ne_of_gt ht)]
  | (t1, v1) :: (t2, v2) :: rest, q, h => by
      have h1 := h (t1, v1) (by simp)
      have h2 := h (t2, v2) (by simp)
      unfold np_interp
      rw [if_neg (by exact not_lt.mpr (le_of_lt h1)),
        if_neg (by exact not_le.mpr h2)]
      exact np_interp_after ((t2, v2) :: rest) q
        (fun e he => h e (List.mem_cons_of_mem _ he))

/-- One raw GPS sample `(SessionTimeS, X, Y)` of a driver's `pos_data` table
after `sort_values` and `dropna` (replay_engine.py lines 115-121). -/
structure PosSample where
  t : ℚ
  x : ℚ
  y : ℚ

/-- The planar rotation `_rotate_arrays` (replay_engine.py lines 31-36) at a
single point, with the cosine/sine of the rotation angle passed in as exact
parameters. -/
def rotate_point (cos_r sin_r cx cy : ℚ) (p : ℚ × ℚ) : ℚ × ℚ :=
  (cx + (p.1 - cx) * cos_r - (p.2 - cy) * sin_r,
   cy + (p.1 - cx) * sin_r + (p.2 - cy) * cos_r)

/-- A driver's entry for one grid instant (replay_engine.py lines 121-123
and 162-175): interpolate x and y at the grid time (both channels share the
sample times, so they are `none` together — the source checks
`np.isnan(x_rot[i])`), then apply the rotation; `none` means the driver is
omitted from that frame. -/
def driver_frame_entry (samples : List PosSample) (rot : ℚ × ℚ → ℚ × ℚ)
    (q : ℚ) : Option (ℚ × ℚ) :=
  match np_interp (samples.map fun s => (s.t, s.x)) q,
        np_interp (samples.map fun s => (s.t, s.y)) q with
  | some x, some y => some (rot (x, y))
  | _, _ => none

/-- The `frames` structure of `build_replay_data` (replay_engine.py lines
107 and 162-175): for each grid index, the drivers with an interpolated
position at that instant, in roster order. -/
def build_frames (pos_data : List (String × List PosSample))
    (rot : ℚ × ℚ → ℚ × ℚ) (time_grid : List ℚ) :
    List (List (String × ℚ × ℚ)) :=
  time_grid.map fun q =>
    pos_data.filterMap fun pd =>
      (driver_frame_entry pd.2 rot q).map fun p => (pd.1, p)

/-- C6: a driver whose native sample range does not contain the grid time of
frame i (strictly before the first or strictly after the last GPS fix) is
entirely absent from frame i's driver list. -/
theorem interpolation_boundedness
    (pos_data : List (String × List PosSample)) (rot : ℚ × ℚ → ℚ × ℚ)
    (time_grid : List ℚ) (code : String) (samples : List PosSample)
    (i : ℕ) (q : ℚ) (frame : List (String × ℚ × ℚ))
    (hmem : (code, samples) ∈ pos_data)
    (huniq : ∀ s', (code, s') ∈ pos_data → s' = samples)
    (hq : time_grid[i]? = some q)
    (hrange : (∀ s ∈ samples, q < s.t) ∨ (∀ s ∈ samples, s.t < q))
    (hfr : (build_frames pos_data rot time_grid)[i]? = some frame) :
    ∀ x y : ℚ, (code, x, y) ∉ frame := by
  have hnone : driver_frame_entry samples rot q = none := by
    unfold driver_frame_entry
    have hx : np_interp (samples.map fun s => (s.t, s.x)) q = none := by
      rcases hrange with h | h
      · apply np_interp_before
        intro e he
        obtain ⟨s, hs, rfl⟩ := List.mem_map.mp he
        exact h s hs
      · apply np_interp_after
        intro e he
        obtain ⟨s, hs, rfl⟩ := List.mem_map.mp he
        exact h s hs
    rw [hx]
  have hfr2 : frame = pos_data.filterMap fun pd =>
      (driver_frame_entry pd.2 rot q).map fun p => (pd.1, p) := by
    unfold build_frames at hfr
    rw [List.getElem?_map, hq] at hfr
    simpa using hfr.symm
  intro x y hxy
  rw [hfr2] at hxy
  obtain ⟨pd, hpd, hmap⟩ := List.mem_filterMap.mp hxy
  cases hde : driver_frame_entry pd.2 rot q with
  | none =>
      rw [hde] at hmap
      simp at hmap
  | some p =>
      rw [hde] at hmap
      simp only [Option.map_some', Option.some.injEq, Prod.mk.injEq] at hmap
      have hsame : pd.2 = samples := by
        apply huniq
        have hpd2 : (code, pd.2) = pd := by
          rw [← hmap.1]
        rw [hpd2]
        exact hpd
      rw [hsame, hnone] at hde
      exact Option.noConfusion hde

def c6_samples : List PosSample := [⟨10, 1, 2⟩, ⟨20, 3, 4⟩]

def c6_data : List (String × List PosSample) := [("CAR", c6_samples)]

theorem interpolation_boundedness_witness :
    (build_frames c6_data (fun p => p) [5, 15, 25])[0]? =
      some ([] : List (String × ℚ × ℚ)) ∧
    ("CAR", (0:ℚ), (0:ℚ)) ∉ ([] : List (String × ℚ × ℚ)) := by
  have hfr : (build_frames c6_data (fun p => p) [5, 15, 25])[0]? =
      some ([] : List (String × ℚ × ℚ)) := by
    norm_num [build_frames, driver_frame_entry, np_interp, c6_data, c6_samples]
  refine ⟨hfr, ?_⟩
  exact interpolation_boundedness c6_data (fun p => p) [5, 15, 25] "CAR"
    c6_samples 0 5 [] (by simp [c6_data])
    (by intro s' h; simpa [c6_data] using h)
    (by norm_num)
    (Or.inl (by
      intro s hs
      simp only [c6_samples, List.mem_cons, List.mem_singleton] at hs
      rcases hs with rfl | hs
      · norm_num
      · rcases hs with rfl | hs
        · norm_num
        · simp at hs))
    hfr 0 0

/-- One row of the lap table after `_td_to_secs` conversion
(replay_engine.py lines 74-76): completion time `Time` and `LapStartTime`
in seconds, `none` for missing values. -/
structure LapRow where
  driver : String
  lap_number : ℤ
  time_s : Option ℚ
  lap_start_s : Option ℚ

/-- `race_start = float(lap_times["LapStartTimeS"].min())`
(replay_engine.py line 78); pandas `min` skips missing values. -/
def race_start_of (laps : List LapRow) : Option ℚ :=
  (laps.filterMap (·.lap_start_s)).min?

/-- `race_end = float(lap_times["TimeS"].max())` (replay_engine.py line 79). -/
def race_end_of (laps : List LapRow) : Option ℚ :=
  (laps.filterMap (·.time_s)).max?

/-- Number of points of `np.arange` for a positive step:
`ceil((stop - start) / step)`, computed on the rational's numerator and
denominator. -/
def nat_ceil (q : ℚ) : ℕ := ((q.num + q.den - 1) / q.den).toNat

/-- Embeds `np.arange(race_start, race_end, sample_interval)`
(replay_engine.py line 81): the k-th grid point is `start + k * step`, and
for positive step there are exactly `ceil((stop - start) / step)` of them
(numpy's documented semantics). -/
def np_arange (start stop step : ℚ) : List ℚ :=
  (List.range (nat_ceil ((stop - start) / step))).map
    fun k : ℕ => start + (k : ℚ) * step

theorem int_ceil_cast_div (n : ℤ) (d : ℕ) (hd : 0 < d) :
    ⌈(n : ℚ) / (d : ℚ)⌉ = (n + (d:ℤ) - 1) / (d:ℤ) := by
  have hdz : (0:ℤ) < (d:ℤ) := by exact_mod_cast hd
  have hdq : (0:ℚ) < (d : ℚ) := by exact_mod_cast hd
  have heq := Int.ediv_add_emod (n + (d:ℤ) - 1) (d:ℤ)
  have hr0 : 0 ≤ (n + (d:ℤ) - 1) % (d:ℤ) := Int.emod_nonneg _ (by omega)
  have hr1 : (n + (d:ℤ) - 1) % (d:ℤ) < (d:ℤ) := Int.emod_lt_of_pos _ hdz
  apply Int.ceil_eq_iff.mpr
  constructor
  · rw [show (((n + (d:ℤ) - 1) / (d:ℤ) : ℤ) : ℚ) - 1 =
      (((n + (d:ℤ) - 1) / (d:ℤ) - 1 : ℤ) : ℚ) by push_cast; ring]
    rw [lt_div_iff₀ hdq]
    have hlt : ((n + (d:ℤ) - 1) / (d:ℤ) - 1) * (d:ℤ) < n := by
      nlinarith [heq, hr0]
    exact_mod_cast hlt
  · rw [div_le_iff₀ hdq]
    have hle : n ≤ ((n + (d:ℤ) - 1) / (d:ℤ)) * (d:ℤ) := by
      nlinarith [heq, hr1]
    exact_mod_cast hle

theorem nat_ceil_eq_ceil (q : ℚ) (hq : 0 < q) : (nat_ceil q : ℤ) = ⌈q⌉ := by
  have hd : (0:ℤ) < (q.den : ℤ) := by exact_mod_cast q.pos
  have hnum : 0 < q.num := Rat.num_pos.mpr hq
  have hc0 : 0 ≤ (q.num + (q.den : ℤ) - 1) / (q.den : ℤ) :=
    Int.ediv_nonneg (by omega) (le_of_lt hd)
  have hq_eq : ((q.num : ℚ)) / ((q.den : ℚ)) = q := Rat.num_div_den q
  conv_rhs => rw [← hq_eq]
  rw [int_ceil_cast_div q.num q.den q.pos]
  exact Int.toNat_of_nonneg hc0

/-- C7: for a race span `[s, e]` taken from the lap table (earliest lap
start, latest lap completion) with `s < e` and a positive sample interval,
the time grid has exactly `ceil((e - s) / interval)` points, starts at `s`,
has uniform spacing `interval`, and is strictly increasing. -/
theorem time_grid_coverage (laps : List LapRow) (interval s e : ℚ)
    (h1 : race_start_of laps = some s) (h2 : race_end_of laps = some e)
    (hse : s < e) (hI : 0 < interval) :
    ((np_arange s e interval).length : ℤ) = ⌈(e - s) / interval⌉ ∧
    (np_arange s e interval)[0]? = some s ∧
    (∀ (i : ℕ) (hi1 : i < (np_arange s e interval).length)
      (hi2 : i + 1 < (np_arange s e interval).length),
      (np_arange s e interval).get ⟨i + 1, hi2⟩ =
        (np_arange s e interval).get ⟨i, hi1⟩ + interval) ∧
    List.Chain' (· < ·) (np_arange s e interval) := by
  have hpos : 0 < (e - s) / interval := div_pos (by linarith) hI
  have hlen : (np_arange s e interval).length =
      nat_ceil ((e - s) / interval) := by
    rw [np_arange, List.length_map, List.length_range]
  have hceil := nat_ceil_eq_ceil _ hpos
  have hn1 : 1 ≤ nat_ceil ((e - s) / interval) := by
    have hcp : 0 < ⌈(e - s) / interval⌉ := Int.ceil_pos.mpr hpos
    omega
  refine ⟨by rw [hlen]; exact hceil, ?_, ?_, ?_⟩
  · have hlt : 0 < (np_arange s e interval).length := by rw [hlen]; omega
    rw [List.getElem?_eq_getElem hlt]
    simp only [np_arange, List.getElem_map, List.getElem_range,
      Option.some.injEq, Nat.cast_zero]
    ring
  · intro i hi1 hi2
    simp only [np_arange, List.get_eq_getElem, List.getElem_map,
      List.getElem_range]
    push_cast
    ring
  · rw [List.chain'_iff_get]
    intro i hi
    simp only [np_arange, List.get_eq_getElem, List.getElem_map,
      List.getElem_range]
    have hstep : (i : ℚ) * interval < ((i : ℚ) + 1) * interval := by
      have := mul_lt_mul_of_pos_right
        (show (i : ℚ) < (i : ℚ) + 1 by norm_num) hI
      exact this
    push_cast
    linarith

theorem time_grid_coverage_witness :
    ((np_arange 0 10 3).length : ℤ) = ⌈((10:ℚ) - 0) / 3⌉ ∧
    (np_arange 0 10 3)[0]? = some 0 ∧
    List.Chain' (· < ·) (np_arange 0 10 3) := by
  have h := time_grid_coverage [⟨"A", 1, some 10, some 0⟩] 3 0 10 rfl rfl
    (by norm_num) (by norm_num)
  exact ⟨h.1, h.2.1, h.2.2.2⟩

/-- One telemetry sample of the lap used for DRS-zone detection
(`_build_drs_zones`, replay_engine.py lines 421-423): the DRS channel value
and the (x, y) point, `none` when the x coordinate is NaN. -/
structure TelSample where
  drs : ℚ
  pos : Option (ℚ × ℚ)

/-- The activity test `drs[i] >= 10 and not np.isnan(x[i])`
(replay_engine.py line 434), returning the point when active. -/
def drs_active_point (s : TelSample) : Option (ℚ × ℚ) :=
  if 10 ≤ s.drs then s.pos else none

/-- Python's slice `l[::step]`: every `step`-th element starting at index 0. -/
def every_nth {α : Type} : List α → ℕ → List α
  | [], _ => []
  | a :: rest, step => a :: every_nth (rest.drop (step - 1)) step
termination_by l _ => l.length
decreasing_by
  simp only [List.length_drop, List.length_cons]
  omega

/-- `zone_x[::step]` with `step = max(1, len(zone_x) // 30)`
(replay_engine.py lines 442-443). -/
def downsample_zone (l : List (ℚ × ℚ)) : List (ℚ × ℚ) :=
  every_nth l (max 1 (l.length / 30))

/-- The zone-scan loop of `_build_drs_zones` (replay_engine.py lines
429-447): accumulate contiguous active runs into `cur`, reset on a run
start, emit a run on leaving it only when longer than 5 samples, and flush
the final run at end of input under the same length test. -/
def drs_zones_scan : List TelSample → List (ℚ × ℚ) → Bool →
    List (List (ℚ × ℚ))
  | [], cur, in_zone =>
      if in_zone = true ∧ 5 < cur.length then [downsample_zone cur] else []
  | s :: rest, cur, in_zone =>
      match drs_active_point s with
      | some p =>
          drs_zones_scan rest ((if in_zone = true then cur else []) ++ [p]) true
      | none =>
          (if in_zone = true ∧ 5 < cur.length then [downsample_zone cur]
            else []) ++ drs_zones_scan rest cur false

/-- The zones produced from the chosen lap's telemetry samples
(replay_engine.py lines 429-447; the surrounding candidate-lap selection of
`_build_drs_zones` only picks which sample list this scan runs on). -/
def build_drs_zones_core (samples : List TelSample) : List (List (ℚ × ℚ)) :=
  drs_zones_scan samples [] false

theorem every_nth_length {α : Type} (step : ℕ) (hs : 1 ≤ step) :
    ∀ (n : ℕ) (l : List α), l.length ≤ n →
      (every_nth l step).length = (l.length + step - 1) / step := by
  intro n
  induction n with
  | zero =>
      intro l hl
      have hnil : l = [] := List.eq_nil_of_length_eq_zero (by omega)
      subst hnil
      simp [every_nth]
      exact (Nat.div_eq_of_lt (by omega)).symm
  | succ n ih =>
      intro l hl
      cases l with
      | nil =>
          simp [every_nth]
          exact (Nat.div_eq_of_lt (by omega)).symm
      | cons a rest =>
          rw [every_nth]
          rw [List.length_cons, List.length_cons]
          rw [ih (rest.drop (step - 1)) (by
            simp only [List.length_drop]
            simp only [List.length_cons] at hl
            omega)]
          rw [List.length_drop]
          by_cases hm : rest.length ≤ step - 1
          · have h0 : rest.length - (step - 1) = 0 := by omega
            rw [h0]
            rw [Nat.div_eq_of_lt (by omega)]
            have he : rest.length + 1 + step - 1 = rest.length + step := by
              omega
            rw [he, Nat.add_div_right _ (by omega)]
            rw [Nat.div_eq_of_lt (by omega)]
          · have h1 : rest.length - (step - 1) + step - 1 = rest.length := by
              omega
            rw [h1]
            have he : rest.length + 1 + step - 1 = rest.length + step := by
              omega
            rw [he, Nat.add_div_right _ (by omega)]

theorem downsample_zone_length (l : List (ℚ × ℚ)) :
    (downsample_zone l).length =
      (l.length + max 1 (l.length / 30) - 1) / max 1 (l.length / 30) ∧
    (downsample_zone l).length ≤ 59 := by
  have hs : 1 ≤ max 1 (l.length / 30) := le_max_left _ _
  have hlen := every_nth_length (max 1 (l.length / 30)) hs l.length l le_rfl
  unfold downsample_zone
  refine ⟨hlen, ?_⟩
  rw [hlen]
  have hdm := Nat.div_add_mod l.length 30
  have hmod : l.length % 30 < 30 := Nat.mod_lt _ (by omega)
  have hq : 0 < max 1 (l.length / 30) := by omega
  have key : (l.length + max 1 (l.length / 30) - 1) /
      max 1 (l.length / 30) < 60 := by
    rw [Nat.div_lt_iff_lt_mul hq]
    rcases le_or_lt (l.length / 30) 1 with hle | hgt
    · rw [Nat.max_eq_left hle]
      omega
    · rw [Nat.max_eq_right (by omega)]
      omega
  omega

theorem drs_scan_inactive_false (off : TelSample)
    (hoff : drs_active_point off = none) :
    ∀ (b : ℕ) (cur : List (ℚ × ℚ)),
      drs_zones_scan (List.replicate b off) cur false = [] := by
  intro b
  induction b with
  | zero => intro cur; simp [drs_zones_scan]
  | succ b ih =>
      intro cur
      rw [List.replicate_succ]
      simp only [drs_zones_scan, hoff]
      simp [ih]

theorem drs_scan_leading_inactive (off : TelSample)
    (hoff : drs_active_point off = none) :
    ∀ (a : ℕ) (rest : List TelSample) (cur : List (ℚ × ℚ)),
      drs_zones_scan (List.replicate a off ++ rest) cur false =
        drs_zones_scan rest cur false := by
  intro a
  induction a with
  | zero => intro rest cur; simp
  | succ a ih =>
      intro rest cur
      rw [List.replicate_succ, List.cons_append]
      simp only [drs_zones_scan, hoff]
      simp [ih]

theorem drs_scan_active_run (on_s : TelSample) (p : ℚ × ℚ)
    (hon : drs_active_point on_s = some p) :
    ∀ (n : ℕ) (rest : List TelSample) (cur : List (ℚ × ℚ)),
      drs_zones_scan (List.replicate n on_s ++ rest) cur true =
        drs_zones_scan rest (cur ++ List.replicate n p) true := by
  intro n
  induction n with
  | zero => intro rest cur; simp
  | succ n ih =>
      intro rest cur
      rw [List.replicate_succ, List.cons_append]
      simp only [drs_zones_scan, hon, if_true, eq_self_iff_true]
      rw [ih rest (cur ++ [p])]
      rw [List.append_assoc]
      rw [show [p] ++ List.replicate n p = List.replicate (n + 1) p by
        rw [List.singleton_append, ← List.replicate_succ]]

theorem drs_scan_trailing (off : TelSample)
    (hoff : drs_active_point off = none) :
    ∀ (b : ℕ) (cur : List (ℚ × ℚ)),
      drs_zones_scan (List.replicate b off) cur true =
        if 5 < cur.length then [downsample_zone cur] else [] := by
  intro b cur
  cases b with
  | zero => simp [drs_zones_scan]
  | succ b =>
      rw [List.replicate_succ]
      simp only [drs_zones_scan, hoff]
      rw [drs_scan_inactive_false off hoff b cur]
      simp

theorem drs_zones_single_run (a n b : ℕ) (off on_s : TelSample) (p : ℚ × ℚ)
    (hoff : drs_active_point off = none)
    (hon : drs_active_point on_s = some p) :
    build_drs_zones_core (List.replicate a off ++ List.replicate n on_s ++
      List.replicate b off) =
      if 5 < n then [downsample_zone (List.replicate n p)] else [] := by
  unfold build_drs_zones_core
  rw [List.append_assoc, drs_scan_leading_inactive off hoff]
  cases n with
  | zero =>
      simp only [List.replicate_zero, List.nil_append]
      rw [drs_scan_inactive_false off hoff]
      simp
  | succ n =>
      rw [List.replicate_succ, List.cons_append]
      simp only [drs_zones_scan, hon]
      rw [if_neg (by simp)]
      rw [List.nil_append]
      rw [drs_scan_active_run on_s p hon n (List.replicate b off) [p]]
      rw [drs_scan_trailing off hoff]
      rw [show [p] ++ List.replicate n p = List.replicate (n + 1) p by
        rw [List.singleton_append, ← List.replicate_succ]]
      rw [List.length_replicate]

/-- C8 (amended): a contiguous DRS-active run is discarded unless it is
strictly longer than 5 samples (so in particular every run shorter than 5,
and also a run of exactly 5, is discarded; a 6-sample run gives exactly one
zone), and every emitted zone is downsampled with stride
`max 1 (len / 30)`, yielding `ceil(len / stride)` points — at most 59, but
not at most 30 (a 31-sample run keeps all 31 points, see the
counterexample). -/
theorem drs_zone_min_run_and_downsample :
    (∀ (a n b : ℕ) (off on_s : TelSample) (p : ℚ × ℚ),
      drs_active_point off = none → drs_active_point on_s = some p →
      build_drs_zones_core (List.replicate a off ++ List.replicate n on_s ++
        List.replicate b off) =
        if 5 < n then [downsample_zone (List.replicate n p)] else []) ∧
    (∀ l : List (ℚ × ℚ), (downsample_zone l).length =
      (l.length + max 1 (l.length / 30) - 1) / max 1 (l.length / 30) ∧
      (downsample_zone l).length ≤ 59) :=
  ⟨fun a n b off on_s p hoff hon =>
      drs_zones_single_run a n b off on_s p hoff hon,
    downsample_zone_length⟩

def c8_on : TelSample := ⟨10, some (1, 2)⟩

def c8_off : TelSample := ⟨0, none⟩

theorem drs_zone_min_run_and_downsample_witness :
    build_drs_zones_core (List.replicate 3 c8_on) = [] ∧
    (build_drs_zones_core (List.replicate 6 c8_on)).map List.length = [6] := by
  have hoff : drs_active_point c8_off = none := by
    norm_num [drs_active_point, c8_off]
  have hon : drs_active_point c8_on = some (1, 2) := by
    norm_num [drs_active_point, c8_on]
  have h3 := (drs_zone_min_run_and_downsample.1) 0 3 0 c8_off c8_on (1, 2)
    hoff hon
  have h6 := (drs_zone_min_run_and_downsample.1) 0 6 0 c8_off c8_on (1, 2)
    hoff hon
  simp only [List.replicate_zero, List.nil_append, List.append_nil] at h3 h6
  constructor
  · rw [h3, if_neg (by omega)]
  · rw [h6, if_pos (by omega)]
    have hlen := (drs_zone_min_run_and_downsample.2
      (List.replicate 6 ((1:ℚ), (2:ℚ)))).1
    rw [List.length_replicate] at hlen
    simp only [List.map_cons, List.map_nil]
    rw [hlen]
    decide

/-- C8 counterexample to the 30-point bound: a single DRS-active run of 31
samples yields one zone whose polyline keeps all 31 points, because the
stride `max(1, 31 // 30)` is 1. -/
theorem c8_counterexample :
    ¬ (∀ z ∈ build_drs_zones_core (List.replicate 31 c8_on),
        z.length ≤ 30) := by
  intro h
  have hoff : drs_active_point c8_off = none := by
    norm_num [drs_active_point, c8_off]
  have hon : drs_active_point c8_on = some (1, 2) := by
    norm_num [drs_active_point, c8_on]
  have hz := drs_zones_single_run 0 31 0 c8_off c8_on (1, 2) hoff hon
  simp only [List.replicate_zero, List.nil_append, List.append_nil] at hz
  rw [if_pos (by omega)] at hz
  have hlen := (downsample_zone_length (List.replicate 31 ((1:ℚ), (2:ℚ)))).1
  rw [List.length_replicate] at hlen
  have h31 : (downsample_zone (List.replicate 31 ((1:ℚ), (2:ℚ)))).length =
      31 := by
    rw [hlen]
    decide
  have hmem : downsample_zone (List.replicate 31 ((1:ℚ), (2:ℚ))) ∈
      build_drs_zones_core (List.replicate 31 c8_on) := by
    rw [hz]
    simp
  have := h _ hmem
  omega

/-- One entry of `pit_events[driver]` built by `_build_pit_events`
(replay_engine.py lines 512-527): lap number and optional in/out times. -/
structure PitEvent where
  lap : ℤ
  in_t : Option ℚ
  out_t : Option ℚ

/-- Python truthiness of an optional float as used by `if pit_in and ...`
(dashboard.py lines 317-322): `None` and `0.0` are both falsy. -/
def opt_truthy (o : Option ℚ) : Bool :=
  match o with
  | none => false
  | some v => decide (v ≠ 0)

/-- Embeds `_is_in_pit` (src/api/routes/dashboard.py lines 315-323): inside
a recorded `[pit_in, pit_out]` window, or within 30 s after a `pit_in` with
no truthy `pit_out`; the early-return loop is `List.any`. -/
def is_in_pit (pit_events : List PitEvent) (session_time : ℚ) : Bool :=
  pit_events.any fun pe =>
    (opt_truthy pe.in_t && opt_truthy pe.out_t &&
      decide (pe.in_t.getD 0 ≤ session_time ∧
        session_time ≤ pe.out_t.getD 0)) ||
    (opt_truthy pe.in_t && !opt_truthy pe.out_t &&
      decide (pe.in_t.getD 0 ≤ session_time ∧
        session_time ≤ pe.in_t.getD 0 + 30))

theorem opt_truthy_true_iff (o : Option ℚ) :
    opt_truthy o = true ↔ ∃ v, o = some v ∧ v ≠ 0 := by
  cases o <;> simp [opt_truthy]

theorem opt_truthy_false_iff (o : Option ℚ) :
    opt_truthy o = false ↔ o = none ∨ o = some 0 := by
  cases o <;> simp [opt_truthy]

/-- C9 (amended): a driver is reported in the pit at time t iff t lies in a
recorded window whose pit-in and pit-out times are both present and nonzero,
or within 30 s after a present nonzero pit-in whose pit-out is absent or
zero.  (Python truthiness treats a 0.0 timestamp like a missing one, see the
counterexample.) -/
theorem pit_status_iff (pit_events : List PitEvent) (t : ℚ) :
    is_in_pit pit_events t = true ↔
      (∃ pe ∈ pit_events, ∃ i o : ℚ, pe.in_t = some i ∧ i ≠ 0 ∧
        pe.out_t = some o ∧ o ≠ 0 ∧ i ≤ t ∧ t ≤ o) ∨
      (∃ pe ∈ pit_events, ∃ i : ℚ, pe.in_t = some i ∧ i ≠ 0 ∧
        (pe.out_t = none ∨ pe.out_t = some 0) ∧ i ≤ t ∧ t ≤ i + 30) := by
  unfold is_in_pit
  rw [List.any_eq_true]
  constructor
  · rintro ⟨pe, hpe, hcond⟩
    simp only [Bool.or_eq_true, Bool.and_eq_true, Bool.not_eq_true',
      decide_eq_true_eq] at hcond
    rcases hcond with ⟨⟨hin, hout⟩, hrange⟩ | ⟨⟨hin, hout⟩, hrange⟩
    · obtain ⟨i, hi, hi0⟩ := (opt_truthy_true_iff _).mp hin
      obtain ⟨o, ho, ho0⟩ := (opt_truthy_true_iff _).mp hout
      rw [hi, ho] at hrange
      simp only [Option.getD_some] at hrange
      exact Or.inl ⟨pe, hpe, i, o, hi, hi0, ho, ho0, hrange.1, hrange.2⟩
    · obtain ⟨i, hi, hi0⟩ := (opt_truthy_true_iff _).mp hin
      have hout2 := (opt_truthy_false_iff _).mp hout
      rw [hi] at hrange
      simp only [Option.getD_some] at hrange
      exact Or.inr ⟨pe, hpe, i, hi, hi0, hout2, hrange.1, hrange.2⟩
  · rintro (⟨pe, hpe, i, o, hi, hi0, ho, ho0, h1, h2⟩ |
      ⟨pe, hpe, i, hi, hi0, hout, h1, h2⟩)
    · refine ⟨pe, hpe, ?_⟩
      simp only [Bool.or_eq_true, Bool.and_eq_true, decide_eq_true_eq]
      exact Or.inl ⟨⟨(opt_truthy_true_iff _).mpr ⟨i, hi, hi0⟩,
        (opt_truthy_true_iff _).mpr ⟨o, ho, ho0⟩⟩,
        by rw [hi, ho]; simpa using ⟨h1, h2⟩⟩
    · refine ⟨pe, hpe, ?_⟩
      simp only [Bool.or_eq_true, Bool.and_eq_true, Bool.not_eq_true',
        decide_eq_true_eq]
      exact Or.inr ⟨⟨(opt_truthy_true_iff _).mpr ⟨i, hi, hi0⟩,
        (opt_truthy_false_iff _).mpr hout⟩,
        by rw [hi]; simpa using ⟨h1, h2⟩⟩

def c9_events : List PitEvent := [⟨5, some 0, some 20⟩]

/-- C9 counterexample to the claim as stated: time 10 lies inside the
recorded pit window `[0, 20]`, yet the code reports the driver not in the
pit, because the pit-in timestamp 0.0 is falsy in Python. -/
theorem c9_counterexample :
    (∃ pe ∈ c9_events, ∃ i o : ℚ, pe.in_t = some i ∧ pe.out_t = some o ∧
      i ≤ 10 ∧ (10:ℚ) ≤ o) ∧
    is_in_pit c9_events 10 = false := by
  constructor
  · exact ⟨⟨5, some 0, some 20⟩, by simp [c9_events], 0, 20, rfl, rfl,
      by norm_num, by norm_num⟩
  · norm_num [is_in_pit, c9_events, opt_truthy]

/-- C10: point queries on a driver with an empty or missing lookup sequence
return documented defaults (and, being total functions, cannot raise): lap
1, position `none`, compound `("UNKNOWN", 0)`; and the track status before
any recorded change is `("1", "Green")`. -/
theorem empty_lookup_defaults
    (d : String) (t : ℚ)
    (lap_lookup pos_lookup : String → List (ℚ × ℤ))
    (compound_lookup : String → List (ℚ × String × ℤ))
    (ts_lookup : List (ℚ × String × String))
    (hlap : lap_lookup d = []) (hpos : pos_lookup d = [])
    (hcomp : compound_lookup d = [])
    (hts : ∀ e ∈ ts_lookup, t < e.1) :
    get_current_lap d t lap_lookup = 1 ∧
    get_current_position d t pos_lookup = none ∧
    get_current_compound d t compound_lookup = ("UNKNOWN", 0) ∧
    get_current_track_status t ts_lookup = ("1", "Green") := by
  refine ⟨?_, ?_, ?_, ?_⟩
  · unfold get_current_lap
    rw [hlap]
    norm_num [step_lookup]
  · unfold get_current_position
    rw [hpos]
    rfl
  · unfold get_current_compound
    rw [hcomp]
    rfl
  · cases ts_lookup with
    | nil => rfl
    | cons e rest =>
        have he : t < e.1 := hts e (by simp)
        unfold get_current_track_status
        rw [List.map_cons]
        show step_lookup t ((e.1, e.2) :: rest.map fun x => (x.1, x.2))
          ("1", "Green") = ("1", "Green")
        unfold step_lookup
        rw [if_neg (by exact not_le.mpr he)]

theorem empty_lookup_defaults_witness :
    get_current_lap ("XXX") 5 (fun _ => []) = 1 ∧
    get_current_position ("XXX") 5 (fun _ => []) = none ∧
    get_current_compound ("XXX") 5 (fun _ => []) = ("UNKNOWN", 0) ∧
    get_current_track_status 5 [(10, "2", "Yellow")] = ("1", "Green") :=
  empty_lookup_defaults ("XXX") 5 (fun _ => []) (fun _ => []) (fun _ => [])
    [(10, "2", "Yellow")] rfl rfl rfl
    (by
      intro e he
      simp only [List.mem_singleton] at he
      rw [he]
      norm_num)
